import Mathlib

/-!
Verification of the request-routing, preview-URL and CSV-sniffing logic of the
`workshop-thinking-in-sandboxes` Cloudflare Worker (`src/index.ts`, here
`src/unnamed/part_000`, plus `src/src/workshop.sessions.ts`).

Modelling conventions, fixed once for the whole development:

* JavaScript strings are Lean `String`s; character-level work happens on
  `String.data : List Char`.
* WHATWG `URL` objects are modelled by the record `URLRec` of their parsed
  components (`protocol` includes the trailing `:`, `search` includes the
  leading `?` when non-empty, `port` is `""` when absent).  Component setters
  (`protocol`, `port`, `host`) follow the WHATWG basic-URL-parser state
  overrides for special (http-like) schemes, including the rule that a port
  equal to the scheme's default port is cleared.  Functions of the source that
  take URL strings and call `new URL` are modelled as functions of the parsed
  records, and functions returning URL strings return records; serialisation
  is `URLRec.toUrlString`.
* Effectful calls into the external `@cloudflare/sandbox` library
  (`proxyToSandbox`, `sandbox.*`, `env.AI.run`) and the outcome of
  `request.json()` are inputs of the model: a handler that `await`s such a
  call takes the call's outcome as an explicit argument.
* A thrown JavaScript value is modelled by `JsError`, carrying either an
  `Error`'s `message` or the `String(...)` rendering of a non-`Error` value.
-/

/-! ### JavaScript string primitives -/

/-- Whitespace recognised by JS `String.prototype.trim`, `parseInt` and the
regex class `\s`: the common ASCII whitespace plus NBSP and BOM. -/
def isJsWs (c : Char) : Bool :=
  c = ' ' || c = '\t' || c = '\n' || c = '\r' ||
  c = Char.ofNat 11 || c = Char.ofNat 12 || c = Char.ofNat 0xa0 || c = Char.ofNat 0xfeff

/-- JS `s.trim()` on the character list. -/
def jsTrimList (l : List Char) : List Char :=
  ((l.dropWhile isJsWs).reverse.dropWhile isJsWs).reverse

/-- JS `s.trim()`. -/
def jsTrim (s : String) : String :=
  ⟨jsTrimList s.data⟩

/-- JS `s.split(sep)` for a single-character separator, on character lists.
`[]` splits to `[[]]`, matching JS `''.split(c) = ['']`. -/
def splitChar (sep : Char) : List Char → List (List Char)
  | [] => [[]]
  | c :: rest =>
    if c = sep then [] :: splitChar sep rest
    else
      match splitChar sep rest with
      | [] => [[c]]
      | l :: ls => (c :: l) :: ls

/-- JS `s.split(sep)` for a single-character separator, on strings. -/
def jsSplitChar (s : String) (sep : Char) : List String :=
  (splitChar sep s.data).map fun l => ⟨l⟩

/-- JS `pat.isPrefixOf`-style containment: does `sub` occur contiguously in
`l`? Models `String.prototype.includes` for the patterns used here. -/
def containsSeq (sub : List Char) : List Char → Bool
  | [] => sub.isEmpty
  | c :: rest => sub.isPrefixOf (c :: rest) || containsSeq sub rest

/-- JS `s.includes(sub)`. -/
def jsIncludes (s sub : String) : Bool :=
  containsSeq sub.data s.data

/-- JS `s.startsWith(p)`. -/
def jsStartsWith (s p : String) : Bool :=
  p.data.isPrefixOf s.data

/-- JS `s.endsWith(p)`. -/
def jsEndsWith (s p : String) : Bool :=
  p.data.isSuffixOf s.data

/-- JS `s.indexOf(c)` for a single character: `none` models `-1`. -/
def jsIndexOfChar (l : List Char) (c : Char) : Option Nat :=
  l.findIdx? (· = c)

/-- JS `s.replace(pat, repl)` with a plain-string pattern: replace the first
occurrence only; the string is returned unchanged when `pat` does not occur. -/
def replaceFirstList (pat repl : List Char) : List Char → List Char
  | [] => if pat.isEmpty then repl else []
  | c :: rest =>
    if pat.isPrefixOf (c :: rest) then repl ++ (c :: rest).drop pat.length
    else c :: replaceFirstList pat repl rest

/-- JS `s.replace(pat, repl)` on strings. -/
def jsReplaceFirst (s pat repl : String) : String :=
  ⟨replaceFirstList pat.data repl.data s.data⟩

/-- Canonicalisation used by a case-insensitive (`/i`, non-Unicode) JS regex
on an ASCII pattern: ASCII lower-case letters fold to upper case, everything
else (in particular every non-ASCII character) is left alone. -/
def regexCanon (c : Char) : Char :=
  if 'a' ≤ c && c ≤ 'z' then Char.ofNat (c.toNat - 32) else c

/-- Case-insensitive prefix match of an ASCII pattern, per `regexCanon`. -/
def ciIsPrefixMatch : List Char → List Char → Bool
  | [], _ => true
  | _ :: _, [] => false
  | p :: ps, c :: cs => regexCanon p = regexCanon c && ciIsPrefixMatch ps cs

/-! ### Hostname helpers of `src/unnamed/part_000` -/

/-- Matcher for the JS regex test "caret, backslash-d, plus, dash" applied by
`test`: at least one decimal digit at the start, immediately followed by `-`;
scanning is greedy, which is equivalent because `-` is not a digit.
`digitRun` is the state after the first digit has been seen. -/
def digitRun : List Char → Bool
  | [] => false
  | c :: rest => if c.isDigit then digitRun rest else c = '-'

/-- Matcher entry for the digits-then-dash regex: the first character must be
a digit. -/
def digitsThenDash : List Char → Bool
  | [] => false
  | c :: rest => c.isDigit && digitRun rest

/-- `isLikelyPreviewHostname` (part_000 lines 26-28): the digits-then-dash
regex test conjoined with `hostname.endsWith('.localhost')`. -/
def isLikelyPreviewHostname (hostname : String) : Bool :=
  digitsThenDash hostname.data && jsEndsWith hostname ".localhost"

/-- `isLocalHostname` (part_000 lines 30-32). -/
def isLocalHostname (hostname : String) : Bool :=
  hostname = "localhost" || jsEndsWith hostname ".localhost" || hostname = "127.0.0.1"

/-- `splitHostAndPort` (part_000 lines 34-37): `hostValue.split(':')`, then
the first element is the hostname and the second (possibly absent) the port. -/
def splitHostAndPort (hostValue : String) : String × Option String :=
  let parts := jsSplitChar hostValue ':'
  (parts.headD "", parts[1]?)

/-- The `previewCandidate` computation of the top-level `fetch` handler
(part_000 lines 45-47): the request URL's hostname, and the hostname part of
the `Host` header (`headers.get('host') ?? ''`), each tested with
`isLikelyPreviewHostname`. -/
def fetchPreviewCandidate (urlHostname : String) (hostHeader : Option String) : Bool :=
  let hh := hostHeader.getD ""
  isLikelyPreviewHostname urlHostname || isLikelyPreviewHostname (splitHostAndPort hh).1

/-! ### Spec-side predicates for claim C1 -/

/-- Spec-side reading of C1: the hostname begins with at least one decimal
digit immediately followed by `-`. -/
def StartsWithDigitsDash (s : String) : Prop :=
  ∃ ds rest, s.data = ds ++ '-' :: rest ∧ ds ≠ [] ∧ ∀ c ∈ ds, c.isDigit

/-- Spec-side reading of C1, full preview-hostname condition. -/
def PreviewHostnameSpec (s : String) : Prop :=
  StartsWithDigitsDash s ∧ ".localhost".data <:+ s.data

/-- Spec-side "hostname part of the Host header": everything before the first
`:` (the whole header when it has no `:`). -/
def hostHeaderNamePart (h : String) : String :=
  ⟨h.data.takeWhile (fun c => c ≠ ':')⟩

/-! ### WHATWG URL model -/

/-- Parsed components of a WHATWG `URL`. `protocol` includes the trailing
colon (`"http:"`); `port` is `""` when the URL has no explicit port;
`search` is `""` or starts with `?`; `hash` is `""` or starts with `#`. -/
structure URLRec where
  protocol : String
  hostname : String
  port : String
  pathname : String
  search : String
  hash : String
deriving DecidableEq, Repr

/-- Default port table of the special schemes (WHATWG URL, "special scheme"). -/
def defaultPort : String → Option String
  | "http:" => some "80"
  | "https:" => some "443"
  | "ws:" => some "80"
  | "wss:" => some "443"
  | "ftp:" => some "21"
  | _ => none

/-- The `host` getter: `hostname`, plus `:port` when a port is present. -/
def URLRec.host (u : URLRec) : String :=
  if u.port = "" then u.hostname else u.hostname ++ ":" ++ u.port

/-- URL serialisation (`toString`) for the special-scheme URLs modelled here. -/
def URLRec.toUrlString (u : URLRec) : String :=
  u.protocol ++ "//" ++ u.host ++ u.pathname ++ u.search ++ u.hash

/-- The `protocol` setter between special schemes: the scheme is replaced and,
per the WHATWG scheme-state override, a port equal to the new scheme's
default port is cleared. -/
def setProtocol (u : URLRec) (p : String) : URLRec :=
  { u with protocol := p
           port := if defaultPort p = some u.port then "" else u.port }

/-- The `port` setter: a port equal to the scheme's default port is stored as
no port at all. -/
def setPort (u : URLRec) (p : String) : URLRec :=
  { u with port := if defaultPort u.protocol = some p then "" else p }

/-- The `host` setter: everything before the first `:` becomes the hostname;
digits after it become the port (cleared when equal to the scheme's default
port); with no `:`, or with an empty port part, the old port is kept. -/
def setHost (u : URLRec) (v : String) : URLRec :=
  match jsIndexOfChar v.data ':' with
  | none => { u with hostname := v }
  | some i =>
    let h : String := ⟨v.data.take i⟩
    let p : String := ⟨v.data.drop (i + 1)⟩
    if p = "" then { u with hostname := h }
    else if defaultPort u.protocol = some p then { u with hostname := h, port := "" }
    else { u with hostname := h, port := p }

/-- `new URL(request.origin)`: protocol and host of the request, root path,
no query, no fragment. -/
def originURL (u : URLRec) : URLRec :=
  { protocol := u.protocol, hostname := u.hostname, port := u.port
    pathname := "/", search := "", hash := "" }

/-! ### `encodeURIComponent` / `decodeURIComponent` -/

/-- Characters `encodeURIComponent` leaves unescaped:
alphanumerics and `-
_ . ! ~ *
( )` and the apostrophe. -/
def isUriUnescaped (c : Char) : Bool :=
  c.isAlphanum || c = '-' || c = '_' || c = '.' || c = '!' || c = '~' ||
  c = '*' || c = Char.ofNat 39 || c = '(' || c = ')'

/-- Upper-case hex digit of a nibble. -/
def hexDigitUpper (n : Nat) : Char :=
  if n < 10 then Char.ofNat (48 + n) else Char.ofNat (55 + n)

/-- Percent-escape of one byte, `%XY` with upper-case hex. -/
def pctEncodeByte (b : Nat) : List Char :=
  ['%', hexDigitUpper (b / 16), hexDigitUpper (b % 16)]

/-- UTF-8 bytes of a scalar value. -/
def utf8Bytes (c : Char) : List Nat :=
  let n := c.toNat
  if n < 0x80 then [n]
  else if n < 0x800 then [0xC0 + n / 64, 0x80 + n % 64]
  else if n < 0x10000 then [0xE0 + n / 4096, 0x80 + (n / 64) % 64, 0x80 + n % 64]
  else [0xF0 + n / 262144, 0x80 + (n / 4096) % 64, 0x80 + (n / 64) % 64, 0x80 + n % 64]

/-- `encodeURIComponent` on a character list. -/
def encodeURIComponentList (l : List Char) : List Char :=
  l.flatMap fun c =>
    if isUriUnescaped c then [c] else (utf8Bytes c).flatMap pctEncodeByte

/-- JS `encodeURIComponent`. -/
def encodeURIComponent (s : String) : String :=
  ⟨encodeURIComponentList s.data⟩

/-- Value of a hex digit, either case; `none` on a non-hex-digit. -/
def hexVal (c : Char) : Option Nat :=
  if '0' ≤ c && c ≤ '9' then some (c.toNat - 48)
  else if 'A' ≤ c && c ≤ 'F' then some (c.toNat - 55)
  else if 'a' ≤ c && c ≤ 'f' then some (c.toNat - 87)
  else none

/-- Token stream of `decodeURIComponent`: a literal character, or one byte
decoded from a `%XY` escape. -/
inductive PctTok where
  | raw (c : Char)
  | byte (b : Nat)
deriving DecidableEq, Repr

/-- First phase of `decodeURIComponent`: cut the input into literal
characters and percent-escaped bytes; `none` models the `URIError` thrown on
a `%` not followed by two hex digits. -/
def pctTokens (l : List Char) : Option (List PctTok) :=
  match l with
  | [] => some []
  | c :: rest =>
    if c = '%' then
      match rest with
      | h1 :: h2 :: rest2 =>
        match hexVal h1, hexVal h2 with
        | some a, some b => (pctTokens rest2).map (fun ts => PctTok.byte (16 * a + b) :: ts)
        | _, _ => none
      | _ => none
    else (pctTokens rest).map (fun ts => PctTok.raw c :: ts)

/-- Value of a UTF-8 continuation byte, `none` when the token is not one. -/
def contVal : PctTok → Option Nat
  | PctTok.byte b => if 0x80 ≤ b && b < 0xC0 then some (b - 0x80) else none
  | PctTok.raw _ => none

mutual

/-- Second phase of `decodeURIComponent`: strict UTF-8 decoding of the byte
runs (overlong forms, surrogates and out-of-range values are rejected, as by
the `URIError` of the JS builtin).  The two-, three- and four-byte sequences
are handled by `utf8Dec2`/`utf8Dec3`/`utf8Dec4`. -/
def utf8Decode : List PctTok → Option (List Char)
  | [] => some []
  | PctTok.raw c :: rest => (utf8Decode rest).map (c :: ·)
  | PctTok.byte b :: rest =>
    if b < 0x80 then (utf8Decode rest).map (Char.ofNat b :: ·)
    else if 0xC2 ≤ b ∧ b ≤ 0xDF then utf8Dec2 b rest
    else if 0xE0 ≤ b ∧ b ≤ 0xEF then utf8Dec3 b rest
    else if 0xF0 ≤ b ∧ b ≤ 0xF4 then utf8Dec4 b rest
    else none

/-- Continuation of a two-byte UTF-8 sequence with lead value `b`. -/
def utf8Dec2 (b : Nat) : List PctTok → Option (List Char)
  | t2 :: rest2 =>
    match contVal t2 with
    | some v2 => (utf8Decode rest2).map (Char.ofNat ((b - 0xC0) * 64 + v2) :: ·)
    | none => none
  | [] => none

/-- Continuation of a three-byte UTF-8 sequence with lead value `b`. -/
def utf8Dec3 (b : Nat) : List PctTok → Option (List Char)
  | t2 :: t3 :: rest3 =>
    match contVal t2, contVal t3 with
    | some v2, some v3 =>
      if (b - 0xE0) * 4096 + v2 * 64 + v3 < 0x800 ∨
          (0xD800 ≤ (b - 0xE0) * 4096 + v2 * 64 + v3 ∧
            (b - 0xE0) * 4096 + v2 * 64 + v3 ≤ 0xDFFF) then none
      else (utf8Decode rest3).map (Char.ofNat ((b - 0xE0) * 4096 + v2 * 64 + v3) :: ·)
    | _, _ => none
  | _ => none

/-- Continuation of a four-byte UTF-8 sequence with lead value `b`. -/
def utf8Dec4 (b : Nat) : List PctTok → Option (List Char)
  | t2 :: t3 :: t4 :: rest4 =>
    match contVal t2, contVal t3, contVal t4 with
    | some v2, some v3, some v4 =>
      if (b - 0xF0) * 262144 + v2 * 4096 + v3 * 64 + v4 < 0x10000 ∨
          0x10FFFF < (b - 0xF0) * 262144 + v2 * 4096 + v3 * 64 + v4 then none
      else (utf8Decode rest4).map
        (Char.ofNat ((b - 0xF0) * 262144 + v2 * 4096 + v3 * 64 + v4) :: ·)
    | _, _, _ => none
  | _ => none

end

/-- JS `decodeURIComponent`; `none` models a thrown `URIError`. -/
def decodeURIComponent (s : String) : Option String :=
  (pctTokens s.data >>= utf8Decode).map fun l => (⟨l⟩ : String)

/-! ### Preview-URL functions of `src/unnamed/part_000`

The `pathname` and `search` assignments below are modelled as plain record
updates: the strings assigned by this worker are outputs of a previous parse
(or `encodeURIComponent`, whose output contains no separator, no dot-segment
and no character of the path percent-encode set), on which the WHATWG setter
re-parse is the identity. -/

/-- The constant `LOCAL_PREVIEW_PROXY_PREFIX` of part_000 line 23. -/
def localPreviewProxyPrefixVal : String := "/__sandbox_preview"

/-- `normalizeLocalPreviewUrl` (part_000 lines 484-495): keep a non-local
exposed URL unchanged; otherwise align the preview's protocol with the
request's and, when the request has a port, the preview's port too. -/
def normalizeLocalPreviewUrl (exposedUrl requestUrl : URLRec) : URLRec :=
  if !(isLocalHostname requestUrl.hostname) || !(isLocalHostname exposedUrl.hostname) then
    exposedUrl
  else
    let preview := setProtocol exposedUrl requestUrl.protocol
    if requestUrl.port ≠ "" then setPort preview requestUrl.port else preview

/-- `forcePreviewIndexUrl` (part_000 lines 497-503). -/
def forcePreviewIndexUrl (previewUrl : URLRec) : URLRec :=
  if previewUrl.pathname = "/" || previewUrl.pathname = "" then
    { previewUrl with pathname := "/index.html" }
  else previewUrl

/-- `buildLocalPreviewFallbackUrl` (part_000 lines 505-516): `none` models
the `undefined` return. -/
def buildLocalPreviewFallbackUrl (previewUrl requestUrl : URLRec) : Option URLRec :=
  if !(isLocalHostname requestUrl.hostname) || !(isLocalHostname previewUrl.hostname) then
    none
  else
    let fallback := originURL requestUrl
    let encodedHost := encodeURIComponent previewUrl.host
    let fallback :=
      { fallback with
          pathname := localPreviewProxyPrefixVal ++ "/" ++ encodedHost ++ previewUrl.pathname }
    some { fallback with search := previewUrl.search }

/-- Decoded routing data computed by `handleLocalPreviewProxyRoute` before it
forwards to the external `proxyToSandbox`. -/
structure ProxyDecode where
  previewHost : String
  proxiedPath : String
  proxyTarget : URLRec
deriving DecidableEq, Repr

/-- The `rest` computation of `handleLocalPreviewProxyRoute` (part_000 line
524): the request pathname with the proxy prefix and its trailing slash cut
off. -/
def previewProxyRest (url : URLRec) : List Char :=
  url.pathname.data.drop (localPreviewProxyPrefixVal ++ "/").length

/-- The `encodedHost` computation (part_000 lines 525-526): `rest` up to its
first slash, or all of it. -/
def previewProxyEncodedHost (url : URLRec) : String :=
  match jsIndexOfChar (previewProxyRest url) '/' with
  | none => ⟨previewProxyRest url⟩
  | some i => ⟨(previewProxyRest url).take i⟩

/-- The `proxiedPath` computation (part_000 line 527): `rest` from its first
slash onwards, or `/index.html`. -/
def previewProxyPath (url : URLRec) : String :=
  match jsIndexOfChar (previewProxyRest url) '/' with
  | none => "/index.html"
  | some i => ⟨(previewProxyRest url).drop i⟩

/-- `handleLocalPreviewProxyRoute` (part_000 lines 518-551), up to the
external `proxyToSandbox` call: the outer `none` models the `null` return
for non-matching paths, the inner `none` the `URIError` escaping from
`decodeURIComponent`. -/
def handleLocalPreviewProxyRoute (url : URLRec) : Option (Option ProxyDecode) :=
  if ¬ jsStartsWith url.pathname (localPreviewProxyPrefixVal ++ "/") then none
  else
    match decodeURIComponent (previewProxyEncodedHost url) with
    | none => some none
    | some previewHost =>
      some (some
        { previewHost := previewHost
          proxiedPath := previewProxyPath url
          proxyTarget :=
            { setHost url previewHost with
                pathname :=
                  if previewProxyPath url = "" then "/index.html" else previewProxyPath url
                search := url.search } })

/-- The `exposedHostname` computation of `runInteractiveDevPreview`
(part_000 lines 898-905), the hostname handed to `sandbox.exposePort`. -/
def exposedHostnameFor (requestUrl : URLRec) : String :=
  if isLocalHostname requestUrl.hostname then
    if requestUrl.port ≠ "" then requestUrl.hostname ++ ":" ++ requestUrl.port
    else requestUrl.hostname
  else requestUrl.host

/-- The `sandbox.exposePort` response, as consumed by part_000 line 912-913:
an `exposedAt` field (when present as a string) and a `url` field. -/
structure ExposedPortInfo where
  exposedAt : Option URLRec
  url : URLRec

/-- Result fields of `runInteractiveDevPreview` relevant to its callers. -/
structure DevPreviewResult where
  ok : Bool
  previewUrl : URLRec
  localFallbackPreviewUrl : Option URLRec
  exitCode : Int
deriving DecidableEq, Repr

/-- `runInteractiveDevPreview` (part_000 lines 874-931), with the external
sandbox calls elided: the returned record as computed by lines 912-930. -/
def runInteractiveDevPreview (requestUrl : URLRec) (exposed : ExposedPortInfo) :
    DevPreviewResult :=
  let rawPreviewUrl := exposed.exposedAt.getD exposed.url
  let directPreviewUrl := forcePreviewIndexUrl (normalizeLocalPreviewUrl rawPreviewUrl requestUrl)
  let localFallbackPreviewUrl := buildLocalPreviewFallbackUrl directPreviewUrl requestUrl
  { ok := true
    previewUrl := directPreviewUrl
    localFallbackPreviewUrl := localFallbackPreviewUrl
    exitCode := 0 }

/-! ### `sanitizePython` (part_000 lines 261-272) -/

/-- The `withoutFences` computation of `sanitizePython`: strip one leading
(optionally `python`-tagged, case-insensitive) fence with its trailing
whitespace, then one trailing fence, then trim. -/
def stripFencesOnce (trimmed : String) : String :=
  let s1 : String :=
    if ciIsPrefixMatch "```python".data trimmed.data then
      ⟨(trimmed.data.drop 9).dropWhile isJsWs⟩
    else trimmed
  let s2 : String :=
    if "```".data.isPrefixOf s1.data then ⟨(s1.data.drop 3).dropWhile isJsWs⟩ else s1
  let s3 : String :=
    if "```".data.isSuffixOf s2.data then ⟨s2.data.take (s2.data.length - 3)⟩ else s2
  jsTrim s3

/-- `sanitizePython` (part_000 lines 261-272): the trimmed input when it
contains no triple-backtick fence; otherwise `withoutFences || trimmed`. -/
def sanitizePython (content : String) : String :=
  let trimmed := jsTrim content
  if jsIncludes trimmed "```" then
    if stripFencesOnce trimmed = "" then trimmed else stripFencesOnce trimmed
  else trimmed

/-! ### CSV sniffing (part_000 lines 295-334) -/

/-- One `-` sign stripped, for the integer and float regexes. -/
def stripNegSign : List Char → List Char
  | '-' :: r => r
  | l => l

/-- Matcher for the anchored regex "optional minus, one or more digits". -/
def matchIntRegex (l : List Char) : Bool :=
  let l' := stripNegSign l
  !l'.isEmpty && l'.all Char.isDigit

/-- The after-the-digit-run state of the float regex: a dot followed by a
non-empty all-digit remainder. -/
def dotDigitsTail : List Char → Bool
  | '.' :: d2 => !d2.isEmpty && d2.all Char.isDigit
  | _ => false

/-- Matcher for the anchored regex "optional minus, digits, dot, digits":
after the optional sign, a non-empty greedy digit run, then a dot, then a
non-empty all-digit remainder. -/
def matchFloatRegex (l : List Char) : Bool :=
  !((stripNegSign l).takeWhile Char.isDigit).isEmpty &&
    dotDigitsTail ((stripNegSign l).dropWhile Char.isDigit)

/-- Matcher for the anchored case-insensitive regex `true|false`. -/
def matchBoolRegex (l : List Char) : Bool :=
  l.map regexCanon = "TRUE".data || l.map regexCanon = "FALSE".data

/-- `inferCsvValueType` (part_000 lines 295-302), with `normalized` the
trimmed value. -/
def inferCsvValueType (value : String) : String :=
  if jsTrim value = "" then "string"
  else if matchIntRegex (jsTrim value).data then "int64"
  else if matchFloatRegex (jsTrim value).data then "float64"
  else if matchBoolRegex (jsTrim value).data then "bool"
  else "string"

/-- JS `split` on the line-break regex "optional CR, then LF": split at every
LF, consuming one CR directly before it. -/
def splitLinesJs (s : String) : List String :=
  (splitChar '\n' s.data).map fun l =>
    ⟨if l.getLast? = some '\r' then l.dropLast else l⟩

/-- The `lines` computation of `buildCsvStructure` (part_000 lines 305-308):
split on line breaks, trim, drop empties. -/
def csvLines (csv : String) : List String :=
  ((splitLinesJs csv).map jsTrim).filter fun line => 0 < line.length

/-- The object that `buildCsvStructure` passes to `JSON.stringify`. -/
structure CsvStruct where
  rows : Nat
  columns : List String
  dtypes : List (String × String)
  sample : List (List (String × String))
deriving DecidableEq, Repr

/-- JS `Object.fromEntries` on string-valued entries: key order is first
insertion, value is the last entry with that key. -/
def fromEntries (l : List (String × String)) : List (String × String) :=
  l.foldl
    (fun acc kv =>
      if acc.any (fun p => p.1 = kv.1) then acc.map fun p => if p.1 = kv.1 then kv else p
      else acc ++ [kv])
    []

/-- `buildCsvStructure` (part_000 lines 304-334) up to `JSON.stringify`. -/
def buildCsvStructureObj (csv : String) : CsvStruct :=
  match csvLines csv with
  | [] => { rows := 0, columns := [], dtypes := [], sample := [] }
  | line0 :: restLines =>
    let columns := (jsSplitChar line0 ',').map jsTrim
    let records := restLines.map fun line => (jsSplitChar line ',').map jsTrim
    let sample := (records.take 3).map fun row =>
      fromEntries (columns.enum.map fun p => (p.2, row.getD p.1 ""))
    let dtypes := fromEntries (columns.enum.map fun p =>
      (p.2, inferCsvValueType
        ((((records.map fun row => row.getD p.1 "").find? fun v => 0 < (jsTrim v).length)).getD "")))
    { rows := records.length, columns := columns, dtypes := dtypes, sample := sample }

/-! ### `JSON.stringify` (compact form, as used by `buildCsvStructure`) -/

/-- JSON value tree for the bodies this worker serialises. -/
inductive Json where
  | num (n : Nat)
  | bool (b : Bool)
  | str (s : String)
  | arr (xs : List Json)
  | obj (fields : List (String × Json))

/-- Lower-case hex digit of a nibble. -/
def hexDigitLower (n : Nat) : Char :=
  if n < 10 then Char.ofNat (48 + n) else Char.ofNat (87 + n)

/-- JSON string escaping as performed by `JSON.stringify`. -/
def jsonEscapeChar (c : Char) : List Char :=
  if c = '"' then ['\\', '"']
  else if c = '\\' then ['\\', '\\']
  else if c = Char.ofNat 8 then ['\\', 'b']
  else if c = '\t' then ['\\', 't']
  else if c = '\n' then ['\\', 'n']
  else if c = Char.ofNat 12 then ['\\', 'f']
  else if c = '\r' then ['\\', 'r']
  else if c.toNat < 32 then
    ['\\', 'u', '0', '0', hexDigitLower (c.toNat / 16), hexDigitLower (c.toNat % 16)]
  else [c]

/-- A JSON string literal, quotes included. -/
def jsonQuote (s : String) : String :=
  "\"" ++ (⟨s.data.flatMap jsonEscapeChar⟩ : String) ++ "\""

mutual

/-- Compact `JSON.stringify` of a `Json` value. -/
def jsonStringify : Json → String
  | Json.num n => toString n
  | Json.bool b => if b then "true" else "false"
  | Json.str s => jsonQuote s
  | Json.arr xs => "[" ++ jsonStringifyList xs ++ "]"
  | Json.obj fs => "\x7b" ++ jsonStringifyFields fs ++ "\x7d"

/-- Comma-joined serialisation of array elements. -/
def jsonStringifyList : List Json → String
  | [] => ""
  | [x] => jsonStringify x
  | x :: y :: xs => jsonStringify x ++ "," ++ jsonStringifyList (y :: xs)

/-- Comma-joined serialisation of object fields. -/
def jsonStringifyFields : List (String × Json) → String
  | [] => ""
  | [(k, v)] => jsonQuote k ++ ":" ++ jsonStringify v
  | (k, v) :: f :: fs => jsonQuote k ++ ":" ++ jsonStringify v ++ "," ++ jsonStringifyFields (f :: fs)

end

/-- The `Json` tree of a `CsvStruct`, matching the object literal of
part_000 lines 328-333 (and line 311 for the empty case). -/
def csvStructJson (s : CsvStruct) : Json :=
  Json.obj
    [("rows", Json.num s.rows),
     ("columns", Json.arr (s.columns.map Json.str)),
     ("dtypes", Json.obj (s.dtypes.map fun p => (p.1, Json.str p.2))),
     ("sample", Json.arr (s.sample.map fun row => Json.obj (row.map fun p => (p.1, Json.str p.2))))]

/-- `buildCsvStructure` (part_000 lines 304-334). -/
def buildCsvStructure (csv : String) : String :=
  jsonStringify (csvStructJson (buildCsvStructureObj csv))

/-! ### HTTP handlers (part_000 lines 126-178, 573-594, 702-728, 1030-1035) -/

/-- An HTTP response produced through the `json` helper (part_000 lines
1023-1028): a status code and a JSON body. -/
structure Resp where
  status : Nat
  body : Json

/-- The `json(data, status)` helper. -/
def jsonResp (data : Json) (status : Nat) : Resp :=
  { status := status, body := data }

/-- A thrown JavaScript value as observed by a `catch` block: either an
`Error` carrying its `message`, or any other value carrying its `String(...)`
rendering. -/
inductive JsError where
  | errObj (message : String)
  | nonError (rendering : String)
deriving DecidableEq, Repr

/-- The expression `error instanceof Error ? error.message : String(error)`. -/
def errMessageOf : JsError → String
  | JsError.errObj m => m
  | JsError.nonError s => s

/-- Keys of `sessionById` (`src/src/workshop.sessions.ts` lines 20-97): the
five session definitions keyed by their ids. -/
def sessionIds : List String :=
  ["fundamentals", "executing-code", "data-workflows", "preview-workflows", "automation-ci"]

/-- Modelled from the spec: `exampleById` lives in `workshop.examples.ts`,
which is not among the provided sources ("routing HTTP requests to canned
example/session handlers"); its key set is the `ExampleId` union, exhausted
by the `switch` of `runExample` (part_000 lines 553-571) and by the
`exampleById[...]` accesses of part_000. -/
def exampleIds : List String :=
  ["ai-generated-code", "data-analysis", "interactive-dev", "ci-testing", "security-untrusted"]

/-- `handleAiCodeGeneration` (part_000 lines 160-178). `promptField` is the
`prompt` field of the parsed JSON body (`none` when absent); `generatedCode`
is the outcome of the external `generatePythonFromPrompt` call. -/
def handleAiCodeGeneration (method : String) (promptField : Option String)
    (generatedCode : String) : Resp :=
  if method ≠ "POST" then
    jsonResp (Json.obj [("ok", Json.bool false), ("message", Json.str "Method not allowed")]) 405
  else
    let prompt := promptField.map jsTrim
    if prompt = none || prompt = some "" then
      jsonResp (Json.obj [("ok", Json.bool false), ("message", Json.str "Prompt is required.")]) 400
    else
      jsonResp
        (Json.obj
          [("ok", Json.bool true), ("prompt", Json.str (prompt.getD "")),
           ("code", Json.str generatedCode)]) 200

/-- `handleExampleRequest` (part_000 lines 126-158). `runOutcome` is the
outcome of the `try` block around `request.json()` and `runExample`: `ok`
carries the serialised `ExampleRunResult`, `error` the thrown value. -/
def handleExampleRequest (method : String) (pathname : String) (promptField : Option String)
    (generatedCode : String) (runOutcome : Except JsError Json) : Resp :=
  if pathname = "/api/examples/ai-generated-code/generate" then
    handleAiCodeGeneration method promptField generatedCode
  else
    let id := jsReplaceFirst pathname "/api/examples/" ""
    if ¬ exampleIds.contains id then
      jsonResp
        (Json.obj [("ok", Json.bool false), ("message", Json.str ("Unknown example id: " ++ id))])
        404
    else
      match runOutcome with
      | Except.ok r => jsonResp r 200
      | Except.error e =>
        jsonResp
          (Json.obj
            [("ok", Json.bool false), ("exampleId", Json.str id),
             ("message", Json.str (errMessageOf e))]) 500

/-- `handleSessionRequest` (part_000 lines 573-594). `runOutcome` is the
outcome of the `runSession` call inside the `try`. -/
def handleSessionRequest (pathname : String) (runOutcome : Except JsError Json) : Resp :=
  let id := jsReplaceFirst pathname "/api/sessions/" ""
  if ¬ sessionIds.contains id then
    jsonResp
      (Json.obj [("ok", Json.bool false), ("message", Json.str ("Unknown session id: " ++ id))])
      404
  else
    match runOutcome with
    | Except.ok r => jsonResp r 200
    | Except.error e =>
      jsonResp
        (Json.obj
          [("ok", Json.bool false), ("sessionId", Json.str id),
           ("message", Json.str (errMessageOf e))]) 500

/-! ### Terminal dimensions (part_000 lines 702-728, 1030-1035) -/

/-- Decimal value of a digit run. -/
def digitsVal (ds : List Char) : Nat :=
  ds.foldl (fun a c => a * 10 + (c.toNat - 48)) 0

/-- JS `Number.parseInt(s, 10)`: skip leading whitespace, one optional sign,
then the longest run of decimal digits; `none` models `NaN`. -/
def parseIntBase10 (s : String) : Option Int :=
  let l := s.data.dropWhile isJsWs
  let signAndRest : Int × List Char :=
    match l with
    | '-' :: r => (-1, r)
    | '+' :: r => (1, r)
    | _ => (1, l)
  let ds := signAndRest.2.takeWhile Char.isDigit
  if ds.isEmpty then none else some (signAndRest.1 * (digitsVal ds : Int))

/-- `positiveInt` (part_000 lines 1030-1035): `none` models `undefined`, the
argument `none` models a `null` query-string value. -/
def positiveInt (value : Option String) : Option Int :=
  match value with
  | none => none
  | some s =>
    if s = "" then none
    else
      match parseIntBase10 s with
      | none => none
      | some parsed => if parsed ≤ 0 then none else some parsed

/-- The `cols`/`rows` computation of `handleTerminalWebSocket` (part_000
lines 709-710), the dimensions handed to `proxyTerminal`. -/
def terminalDims (colsParam rowsParam : Option String) : Int × Int :=
  ((positiveInt colsParam).getD 120, (positiveInt rowsParam).getD 30)

/-! ### Helper lemmas: C1 -/

theorem digitRun_iff (l : List Char) :
    digitRun l = true ↔ ∃ ds rest, l = ds ++ '-' :: rest ∧ ∀ c ∈ ds, c.isDigit := by
  induction l with
  | nil =>
    simp only [digitRun]
    constructor
    · intro h; exact absurd h (by decide)
    · rintro ⟨ds, rest, h, -⟩
      exact absurd h (by simp)
  | cons c rest ih =>
    by_cases hc : c.isDigit
    · rw [digitRun, if_pos hc, ih]
      constructor
      · rintro ⟨ds, r, rfl, hd⟩
        refine ⟨c :: ds, r, rfl, ?_⟩
        intro x hx
        rcases List.mem_cons.mp hx with rfl | hx
        · exact hc
        · exact hd x hx
      · rintro ⟨ds, r, he, hd⟩
        cases ds with
        | nil =>
          rw [List.nil_append] at he
          cases he
          exact absurd hc (by decide)
        | cons d ds' =>
          rw [List.cons_append] at he
          injection he with h1 h2
          subst h1
          exact ⟨ds', r, h2, fun x hx => hd x (List.mem_cons_of_mem _ hx)⟩
    · rw [digitRun, if_neg hc]
      constructor
      · intro h
        have : c = '-' := of_decide_eq_true h
        exact ⟨[], rest, by rw [this, List.nil_append], by simp⟩
      · rintro ⟨ds, r, he, hd⟩
        cases ds with
        | nil =>
          rw [List.nil_append] at he
          injection he with h1 _
          exact decide_eq_true h1
        | cons d ds' =>
          rw [List.cons_append] at he
          injection he with h1 _
          subst h1
          exact absurd (hd c (List.mem_cons_self c _)) hc

theorem digitsThenDash_iff (l : List Char) :
    digitsThenDash l = true ↔
      ∃ ds rest, l = ds ++ '-' :: rest ∧ ds ≠ [] ∧ ∀ c ∈ ds, c.isDigit := by
  cases l with
  | nil =>
    simp only [digitsThenDash]
    constructor
    · intro h; exact absurd h (by decide)
    · rintro ⟨ds, rest, h, -, -⟩
      exact absurd h (by simp)
  | cons c rest =>
    rw [digitsThenDash, Bool.and_eq_true, digitRun_iff]
    constructor
    · rintro ⟨hc, ds, r, rfl, hd⟩
      refine ⟨c :: ds, r, rfl, List.cons_ne_nil _ _, ?_⟩
      intro x hx
      rcases List.mem_cons.mp hx with rfl | hx
      · exact hc
      · exact hd x hx
    · rintro ⟨ds, r, he, hne, hd⟩
      cases ds with
      | nil => exact absurd rfl hne
      | cons d ds' =>
        rw [List.cons_append] at he
        injection he with h1 h2
        subst h1
        exact ⟨hd c (List.mem_cons_self c _), ds', r, h2,
          fun x hx => hd x (List.mem_cons_of_mem _ hx)⟩

theorem isLikelyPreviewHostname_iff (h : String) :
    isLikelyPreviewHostname h = true ↔ PreviewHostnameSpec h := by
  rw [isLikelyPreviewHostname, Bool.and_eq_true, digitsThenDash_iff, jsEndsWith,
    List.isSuffixOf_iff_suffix]
  exact Iff.rfl

theorem splitChar_ne_nil (sep : Char) (l : List Char) : splitChar sep l ≠ [] := by
  induction l with
  | nil => simp [splitChar]
  | cons c rest ih =>
    rw [splitChar]
    split
    · simp
    · cases h : splitChar sep rest with
      | nil => simp
      | cons a as => simp

theorem splitChar_head (sep : Char) (l : List Char) :
    (splitChar sep l).headD [] = l.takeWhile (fun c => c ≠ sep) := by
  induction l with
  | nil => simp [splitChar]
  | cons c rest ih =>
    rw [splitChar]
    by_cases hc : c = sep
    · rw [if_pos hc, List.takeWhile_cons]
      simp [hc]
    · rw [if_neg hc, List.takeWhile_cons]
      cases h : splitChar sep rest with
      | nil => exact absurd h (splitChar_ne_nil _ _)
      | cons a as =>
        rw [h] at ih
        simp only [List.headD_cons] at ih
        simp [hc, ih]

theorem splitHostAndPort_fst (h : String) :
    (splitHostAndPort h).1 = hostHeaderNamePart h := by
  rw [splitHostAndPort, hostHeaderNamePart, jsSplitChar]
  cases hsp : splitChar ':' h.data with
  | nil => exact absurd hsp (splitChar_ne_nil _ _)
  | cons l ls =>
    have hh := splitChar_head ':' h.data
    rw [hsp] at hh
    simp only [List.headD_cons] at hh
    simp only [hsp, List.map_cons, List.headD_cons]
    rw [hh]

/-- Claim C1: `isLikelyPreviewHostname` returns true exactly of hostnames
that begin with at least one decimal digit immediately followed by `-` and
end with `.localhost`, and the top-level `fetch` handler's `previewCandidate`
holds exactly when this condition holds of the request URL's hostname or of
the hostname part of the `Host` header. -/
theorem c1_preview_hostname_detection :
    (∀ h : String, isLikelyPreviewHostname h = true ↔ PreviewHostnameSpec h) ∧
    (∀ (urlHostname : String) (hostHeader : Option String),
      fetchPreviewCandidate urlHostname hostHeader = true ↔
        (PreviewHostnameSpec urlHostname ∨
          PreviewHostnameSpec (hostHeaderNamePart (hostHeader.getD "")))) := by
  refine ⟨isLikelyPreviewHostname_iff, ?_⟩
  intro urlHostname hostHeader
  rw [fetchPreviewCandidate, Bool.or_eq_true, isLikelyPreviewHostname_iff,
    splitHostAndPort_fst, isLikelyPreviewHostname_iff]

/-! ### Helper lemmas and claim C9 -/

theorem jsTrimList_eq_rdrop (l : List Char) :
    jsTrimList l = List.rdropWhile isJsWs (List.dropWhile isJsWs l) := rfl

theorem jsTrimList_idem (l : List Char) : jsTrimList (jsTrimList l) = jsTrimList l := by
  rw [jsTrimList_eq_rdrop, jsTrimList_eq_rdrop]
  have h1 : List.dropWhile isJsWs (List.rdropWhile isJsWs (List.dropWhile isJsWs l)) =
      List.rdropWhile isJsWs (List.dropWhile isJsWs l) := by
    cases hA : List.rdropWhile isJsWs (List.dropWhile isJsWs l) with
    | nil => simp
    | cons a rest =>
      obtain ⟨t, ht⟩ := List.rdropWhile_prefix isJsWs (List.dropWhile isJsWs l)
      rw [hA] at ht
      have hhead : (List.dropWhile isJsWs l).head? = some a := by
        rw [← ht]; rfl
      have hna : isJsWs a = false := by
        have h3 := List.head?_dropWhile_not isJsWs l
        rw [hhead] at h3
        exact h3
      rw [List.dropWhile_cons, hna]
      simp
  rw [h1, List.rdropWhile_idempotent]

theorem jsTrim_jsTrim (s : String) : jsTrim (jsTrim s) = jsTrim s :=
  congrArg String.mk (jsTrimList_idem s.data)

theorem stripFencesOnce_trimmed (t : String) :
    jsTrim (stripFencesOnce t) = stripFencesOnce t :=
  jsTrim_jsTrim _

theorem sanitizePython_is_trimmed (s : String) :
    jsTrim (sanitizePython s) = sanitizePython s := by
  rw [sanitizePython]
  by_cases h1 : jsIncludes (jsTrim s) "```"
  · rw [if_pos h1]
    by_cases h2 : stripFencesOnce (jsTrim s) = ""
    · rw [if_pos h2]; exact jsTrim_jsTrim s
    · rw [if_neg h2]; exact stripFencesOnce_trimmed _
  · rw [if_neg h1]; exact jsTrim_jsTrim s

theorem sanitizePython_of_no_fence (s : String) (h : jsIncludes (jsTrim s) "```" = false) :
    sanitizePython s = jsTrim s := by
  rw [sanitizePython, if_neg]
  rw [h]
  decide

/-- Claim C9 counterexample: `sanitizePython` is not idempotent.  On the
six-backticks-then-x input, one application strips only the first leading
fence, leaving a string a second application strips again. -/
theorem c9_sanitize_python_not_idempotent :
    sanitizePython "``````x" = "```x" ∧
    sanitizePython (sanitizePython "``````x") = "x" ∧
    sanitizePython (sanitizePython "``````x") ≠ sanitizePython "``````x" :=
  ⟨by decide, by decide, by decide⟩

/-- Claim C9 (amended): if the trimmed input contains no triple-backtick
fence, `sanitizePython` returns the trimmed input; `sanitizePython` never
returns the empty string when the trimmed input is non-empty; and
`sanitizePython` is idempotent on every input whose sanitised result no
longer contains a fence (idempotence on all inputs fails, see the
counterexample). -/
theorem c9_sanitize_python_amended (s : String) :
    (jsIncludes (jsTrim s) "```" = false → sanitizePython s = jsTrim s) ∧
    (jsTrim s ≠ "" → sanitizePython s ≠ "") ∧
    (jsIncludes (sanitizePython s) "```" = false →
      sanitizePython (sanitizePython s) = sanitizePython s) := by
  refine ⟨sanitizePython_of_no_fence s, ?_, ?_⟩
  · intro hne
    rw [sanitizePython]
    by_cases h1 : jsIncludes (jsTrim s) "```"
    · rw [if_pos h1]
      by_cases h2 : stripFencesOnce (jsTrim s) = ""
      · rw [if_pos h2]; exact hne
      · rw [if_neg h2]; exact h2
    · rw [if_neg h1]; exact hne
  · intro h
    have hs := sanitizePython_is_trimmed s
    have h2 := sanitizePython_of_no_fence (sanitizePython s) (by rw [hs]; exact h)
    rw [h2, hs]

theorem c9_sanitize_python_amended_witness :
    (sanitizePython " print(1) " = jsTrim " print(1) ") ∧
    (sanitizePython "x" ≠ "") ∧
    (sanitizePython (sanitizePython "x") = sanitizePython "x") :=
  ⟨(c9_sanitize_python_amended " print(1) ").1 (by decide),
   (c9_sanitize_python_amended "x").2.1 (by decide),
   (c9_sanitize_python_amended "x").2.2 (by decide)⟩

/-! ### Helper lemmas and claim C10 -/

/-- Spec-side predicate for C10: the string is the decimal numeral of a
strictly positive integer. -/
def isPosIntNumeral (s : String) : Bool :=
  !s.data.isEmpty && s.data.all Char.isDigit && 0 < digitsVal s.data

theorem positiveInt_pos (v : Option String) (n : Int) (h : positiveInt v = some n) :
    0 < n := by
  cases v with
  | none => simp [positiveInt] at h
  | some s =>
    rw [positiveInt] at h
    by_cases hs : s = ""
    · rw [if_pos hs] at h
      exact absurd h (by simp)
    · rw [if_neg hs] at h
      cases hp : parseIntBase10 s with
      | none =>
        rw [hp] at h
        exact absurd h (by simp)
      | some parsed =>
        rw [hp] at h
        dsimp only at h
        by_cases hle : parsed ≤ 0
        · rw [if_pos hle] at h
          exact absurd h (by simp)
        · rw [if_neg hle] at h
          injection h with h2
          omega

/-- Claim C10 counterexample: the query value `5.9` is not a positive-integer
numeral, yet `positiveInt` parses its leading integer prefix and
`handleTerminalWebSocket` passes `5` to `proxyTerminal` instead of the
defaults 120/30 the claim predicts for a non-positive-integer parameter. -/
theorem c10_positive_int_no_default_counterexample :
    isPosIntNumeral "5.9" = false ∧
    positiveInt (some "5.9") = some 5 ∧
    (terminalDims (some "5.9") (some "5.9")).1 = 5 ∧
    (terminalDims (some "5.9") (some "5.9")).2 = 5 ∧
    (5 : Int) ≠ 120 ∧ (5 : Int) ≠ 30 :=
  ⟨by decide, by decide, by decide, by decide, by decide, by decide⟩

/-- Claim C10 (amended): `positiveInt` returns `undefined` or a strictly
positive integer — never zero or a negative number — so
`handleTerminalWebSocket` always passes strictly positive `cols`/`rows` to
`proxyTerminal`; the defaults 120 and 30 are used when the parameter is
absent or when `positiveInt` yields nothing (no leading integer prefix, or a
non-positive one) — not whenever the parameter fails to be a positive
integer numeral, since `parseInt` accepts a numeral prefix such as `5.9`. -/
theorem c10_terminal_dims_amended :
    (∀ (v : Option String) (n : Int), positiveInt v = some n → 0 < n) ∧
    (∀ colsParam rowsParam : Option String,
      0 < (terminalDims colsParam rowsParam).1 ∧ 0 < (terminalDims colsParam rowsParam).2) ∧
    (∀ rowsParam, (terminalDims none rowsParam).1 = 120) ∧
    (∀ colsParam, (terminalDims colsParam none).2 = 30) ∧
    (∀ colsParam rowsParam, positiveInt colsParam = none →
      (terminalDims colsParam rowsParam).1 = 120) ∧
    (∀ colsParam rowsParam, positiveInt rowsParam = none →
      (terminalDims colsParam rowsParam).2 = 30) := by
  refine ⟨positiveInt_pos, ?_, ?_, ?_, ?_, ?_⟩
  · intro colsParam rowsParam
    constructor
    · rw [terminalDims]
      cases hc : positiveInt colsParam with
      | none => simp
      | some n =>
        simp only [Option.getD_some]
        exact positiveInt_pos colsParam n hc
    · rw [terminalDims]
      cases hr : positiveInt rowsParam with
      | none => simp
      | some n =>
        simp only [Option.getD_some]
        exact positiveInt_pos rowsParam n hr
  · intro rowsParam
    rfl
  · intro colsParam
    rfl
  · intro colsParam rowsParam hc
    rw [terminalDims, hc]
    rfl
  · intro colsParam rowsParam hr
    rw [terminalDims, hr]
    rfl

theorem c10_terminal_dims_amended_witness :
    (0 < (7 : Int)) ∧
    (terminalDims (some "abc") (some "")).1 = 120 ∧
    (terminalDims (some "abc") (some "")).2 = 30 :=
  ⟨c10_terminal_dims_amended.1 (some "7") 7 (by decide),
   c10_terminal_dims_amended.2.2.2.2.1 (some "abc") (some "") (by decide),
   c10_terminal_dims_amended.2.2.2.2.2 (some "abc") (some "") (by decide)⟩

/-! ### Helper lemmas and claims C5, C6, C7 -/

theorem replaceFirstList_of_self_append (p : Char) (ps id : List Char) :
    replaceFirstList (p :: ps) [] ((p :: ps) ++ id) = id := by
  rw [List.cons_append, replaceFirstList, if_pos, List.nil_append]
  · show List.drop (p :: ps).length (p :: (ps ++ id)) = id
    rw [List.length_cons, List.drop_succ_cons, List.drop_left]
  · exact List.isPrefixOf_iff_prefix.mpr ⟨id, by rw [List.cons_append]⟩

theorem exampleId_of_path (id : String) :
    jsReplaceFirst ("/api/examples/" ++ id) "/api/examples/" "" = id := by
  rw [jsReplaceFirst, String.data_append]
  exact congrArg String.mk (replaceFirstList_of_self_append _ _ _)

theorem sessionId_of_path (id : String) :
    jsReplaceFirst ("/api/sessions/" ++ id) "/api/sessions/" "" = id := by
  rw [jsReplaceFirst, String.data_append]
  exact congrArg String.mk (replaceFirstList_of_self_append _ _ _)

/-- Claim C6: for known example/session ids, a throwing `runExample` /
`runSession` yields a 500 response with `ok: false`, the id, and the thrown
error's `message` when it is an `Error`, otherwise its string rendering. -/
theorem c6_handler_error_responses :
    (∀ (method id : String) (promptField : Option String) (generatedCode : String)
        (e : JsError),
      id ∈ exampleIds →
      handleExampleRequest method ("/api/examples/" ++ id) promptField generatedCode
          (Except.error e) =
        { status := 500
          body := Json.obj [("ok", Json.bool false), ("exampleId", Json.str id),
                            ("message", Json.str (errMessageOf e))] }) ∧
    (∀ (id : String) (e : JsError),
      id ∈ sessionIds →
      handleSessionRequest ("/api/sessions/" ++ id) (Except.error e) =
        { status := 500
          body := Json.obj [("ok", Json.bool false), ("sessionId", Json.str id),
                            ("message", Json.str (errMessageOf e))] }) ∧
    (∀ m : String, errMessageOf (JsError.errObj m) = m) ∧
    (∀ r : String, errMessageOf (JsError.nonError r) = r) := by
  refine ⟨?_, ?_, fun m => rfl, fun r => rfl⟩
  · intro method id promptField generatedCode e hid
    have hgen : ("/api/examples/" ++ id : String) ≠
        "/api/examples/ai-generated-code/generate" := by
      fin_cases hid <;> decide
    have hc : exampleIds.contains id = true := by
      simp only [List.contains_eq_any_beq, List.any_eq_true]
      exact ⟨id, hid, beq_self_eq_true id⟩
    rw [handleExampleRequest, if_neg hgen, exampleId_of_path, if_neg (by rw [hc]; decide)]
    rfl
  · intro id e hid
    have hc : sessionIds.contains id = true := by
      simp only [List.contains_eq_any_beq, List.any_eq_true]
      exact ⟨id, hid, beq_self_eq_true id⟩
    rw [handleSessionRequest.eq_def, sessionId_of_path, if_neg (by rw [hc]; decide)]
    rfl

theorem c6_handler_error_responses_witness :
    (handleExampleRequest "POST" ("/api/examples/" ++ "ci-testing") none ""
        (Except.error (JsError.errObj "boom")) =
      { status := 500
        body := Json.obj [("ok", Json.bool false), ("exampleId", Json.str "ci-testing"),
                          ("message", Json.str (errMessageOf (JsError.errObj "boom")))] }) ∧
    (handleSessionRequest ("/api/sessions/" ++ "fundamentals")
        (Except.error (JsError.nonError "42")) =
      { status := 500
        body := Json.obj [("ok", Json.bool false), ("sessionId", Json.str "fundamentals"),
                          ("message", Json.str (errMessageOf (JsError.nonError "42")))] }) ∧
    (errMessageOf (JsError.errObj "boom") = "boom") :=
  ⟨c6_handler_error_responses.1 "POST" "ci-testing" none "" (JsError.errObj "boom")
      (by decide),
   c6_handler_error_responses.2.1 "fundamentals" (JsError.nonError "42") (by decide),
   c6_handler_error_responses.2.2.1 "boom"⟩

/-- Claim C7: the AI-generation endpoint answers 405 with `ok: false` on a
non-POST method, 400 with `Prompt is required.` when the JSON body's prompt
is absent or trims to the empty string, and otherwise 200 with `ok: true`,
the trimmed prompt, and the generated code. -/
theorem c7_ai_generation_responses :
    (∀ (method : String) (promptField : Option String) (generatedCode : String),
      method ≠ "POST" →
      handleAiCodeGeneration method promptField generatedCode =
        { status := 405
          body := Json.obj [("ok", Json.bool false),
                            ("message", Json.str "Method not allowed")] }) ∧
    (∀ generatedCode : String,
      handleAiCodeGeneration "POST" none generatedCode =
        { status := 400
          body := Json.obj [("ok", Json.bool false),
                            ("message", Json.str "Prompt is required.")] }) ∧
    (∀ (p generatedCode : String), jsTrim p = "" →
      handleAiCodeGeneration "POST" (some p) generatedCode =
        { status := 400
          body := Json.obj [("ok", Json.bool false),
                            ("message", Json.str "Prompt is required.")] }) ∧
    (∀ (p generatedCode : String), jsTrim p ≠ "" →
      handleAiCodeGeneration "POST" (some p) generatedCode =
        { status := 200
          body := Json.obj [("ok", Json.bool true), ("prompt", Json.str (jsTrim p)),
                            ("code", Json.str generatedCode)] }) := by
  refine ⟨?_, ?_, ?_, ?_⟩
  · intro method promptField generatedCode hm
    rw [handleAiCodeGeneration, if_pos hm]
    rfl
  · intro generatedCode
    rfl
  · intro p generatedCode hp
    rw [handleAiCodeGeneration, if_neg (by decide : ¬ ("POST" : String) ≠ "POST")]
    rw [if_pos]
    · rfl
    · simp [hp]
  · intro p generatedCode hp
    rw [handleAiCodeGeneration, if_neg (by decide : ¬ ("POST" : String) ≠ "POST")]
    rw [if_neg]
    · rfl
    · simp [hp]

theorem c7_ai_generation_responses_witness :
    (handleAiCodeGeneration "GET" none "" =
      { status := 405
        body := Json.obj [("ok", Json.bool false),
                          ("message", Json.str "Method not allowed")] }) ∧
    (handleAiCodeGeneration "POST" (some "  ") "" =
      { status := 400
        body := Json.obj [("ok", Json.bool false),
                          ("message", Json.str "Prompt is required.")] }) ∧
    (handleAiCodeGeneration "POST" (some " hi ") "print(1)" =
      { status := 200
        body := Json.obj [("ok", Json.bool true), ("prompt", Json.str (jsTrim " hi ")),
                          ("code", Json.str "print(1)")] }) :=
  ⟨c7_ai_generation_responses.1 "GET" none "" (by decide),
   c7_ai_generation_responses.2.2.1 "  " "" (by decide),
   c7_ai_generation_responses.2.2.2 " hi " "print(1)" (by decide)⟩

/-! ### Claim C3 -/

/-- Claim C3 counterexample: with exposed URL `http://localhost:443/a?x=1`
and request URL `https://localhost/` (no port), both hostnames local and the
request port empty, the claim predicts only the protocol changes; but the
WHATWG protocol setter clears a port equal to the new scheme's default, so
the code also drops the preview's port `443`. -/
theorem c3_normalize_frame_counterexample :
    isLocalHostname "localhost" = true ∧
    normalizeLocalPreviewUrl ⟨"http:", "localhost", "443", "/a", "?x=1", ""⟩
        ⟨"https:", "localhost", "", "/", "", ""⟩ =
      ⟨"https:", "localhost", "", "/a", "?x=1", ""⟩ ∧
    normalizeLocalPreviewUrl ⟨"http:", "localhost", "443", "/a", "?x=1", ""⟩
        ⟨"https:", "localhost", "", "/", "", ""⟩ ≠
      ⟨"https:", "localhost", "443", "/a", "?x=1", ""⟩ :=
  ⟨by decide, by decide, by decide⟩

/-- Claim C3 (amended): if either hostname is non-local,
`normalizeLocalPreviewUrl` returns the exposed URL unchanged; when both are
local, hostname, pathname, query and fragment are unchanged, the protocol
becomes the request's, and the port becomes the request's port when that is
non-empty, and otherwise keeps the exposed port except that a port equal to
the default port of the request's protocol is cleared (WHATWG protocol-setter
rule).  The hypothesis is the parse invariant that a parsed URL never carries
its scheme's default port explicitly. -/
theorem c3_normalize_frame_amended (exposedUrl requestUrl : URLRec)
    (hwf : requestUrl.port ≠ "" → defaultPort requestUrl.protocol ≠ some requestUrl.port) :
    (¬(isLocalHostname exposedUrl.hostname = true ∧
        isLocalHostname requestUrl.hostname = true) →
      normalizeLocalPreviewUrl exposedUrl requestUrl = exposedUrl) ∧
    (isLocalHostname exposedUrl.hostname = true →
      isLocalHostname requestUrl.hostname = true →
      ((normalizeLocalPreviewUrl exposedUrl requestUrl).hostname = exposedUrl.hostname ∧
       (normalizeLocalPreviewUrl exposedUrl requestUrl).pathname = exposedUrl.pathname ∧
       (normalizeLocalPreviewUrl exposedUrl requestUrl).search = exposedUrl.search ∧
       (normalizeLocalPreviewUrl exposedUrl requestUrl).hash = exposedUrl.hash) ∧
      (normalizeLocalPreviewUrl exposedUrl requestUrl).protocol = requestUrl.protocol ∧
      (normalizeLocalPreviewUrl exposedUrl requestUrl).port =
        (if requestUrl.port ≠ "" then requestUrl.port
         else if defaultPort requestUrl.protocol = some exposedUrl.port then ""
         else exposedUrl.port)) := by
  constructor
  · intro hnl
    rw [normalizeLocalPreviewUrl, if_pos]
    cases hexp : isLocalHostname exposedUrl.hostname <;>
      cases hreq : isLocalHostname requestUrl.hostname <;> simp_all
  · intro hexp hreq
    have hcond : (!(isLocalHostname requestUrl.hostname) ||
        !(isLocalHostname exposedUrl.hostname)) = false := by
      rw [hexp, hreq]; rfl
    rw [normalizeLocalPreviewUrl, hcond]
    simp only [Bool.false_eq_true, if_false]
    by_cases hport : requestUrl.port ≠ ""
    · rw [if_pos hport, if_pos hport]
      have hne : defaultPort (setProtocol exposedUrl requestUrl.protocol).protocol ≠
          some requestUrl.port := hwf hport
      refine ⟨⟨rfl, rfl, rfl, rfl⟩, rfl, ?_⟩
      rw [setPort, if_neg hne]
    · rw [if_neg hport, if_neg hport]
      exact ⟨⟨rfl, rfl, rfl, rfl⟩, rfl, rfl⟩

theorem c3_normalize_frame_amended_witness :
    (normalizeLocalPreviewUrl ⟨"http:", "example.com", "", "/", "", ""⟩
        ⟨"http:", "localhost", "8787", "/", "", ""⟩ =
      ⟨"http:", "example.com", "", "/", "", ""⟩) ∧
    (((normalizeLocalPreviewUrl ⟨"http:", "5000-x.localhost", "3000", "/p", "?q=1", "#f"⟩
        ⟨"https:", "localhost", "8787", "/", "", ""⟩).hostname = "5000-x.localhost" ∧
      (normalizeLocalPreviewUrl ⟨"http:", "5000-x.localhost", "3000", "/p", "?q=1", "#f"⟩
        ⟨"https:", "localhost", "8787", "/", "", ""⟩).pathname = "/p" ∧
      (normalizeLocalPreviewUrl ⟨"http:", "5000-x.localhost", "3000", "/p", "?q=1", "#f"⟩
        ⟨"https:", "localhost", "8787", "/", "", ""⟩).search = "?q=1" ∧
      (normalizeLocalPreviewUrl ⟨"http:", "5000-x.localhost", "3000", "/p", "?q=1", "#f"⟩
        ⟨"https:", "localhost", "8787", "/", "", ""⟩).hash = "#f") ∧
     (normalizeLocalPreviewUrl ⟨"http:", "5000-x.localhost", "3000", "/p", "?q=1", "#f"⟩
        ⟨"https:", "localhost", "8787", "/", "", ""⟩).protocol = "https:" ∧
     (normalizeLocalPreviewUrl ⟨"http:", "5000-x.localhost", "3000", "/p", "?q=1", "#f"⟩
        ⟨"https:", "localhost", "8787", "/", "", ""⟩).port =
       (if ("8787" : String) ≠ "" then "8787"
        else if defaultPort "https:" = some "3000" then "" else "3000")) :=
  ⟨(c3_normalize_frame_amended ⟨"http:", "example.com", "", "/", "", ""⟩
      ⟨"http:", "localhost", "8787", "/", "", ""⟩ (by decide)).1 (by decide),
   (c3_normalize_frame_amended ⟨"http:", "5000-x.localhost", "3000", "/p", "?q=1", "#f"⟩
      ⟨"https:", "localhost", "8787", "/", "", ""⟩ (by decide)).2 (by decide) (by decide)⟩

/-! ### Helper lemmas and claim C8 -/

theorem forcePreviewIndexUrl_pathname (u : URLRec) :
    (forcePreviewIndexUrl u).pathname =
      (if u.pathname = "/" ∨ u.pathname = "" then "/index.html" else u.pathname) := by
  rw [forcePreviewIndexUrl]
  by_cases h1 : u.pathname = "/"
  · simp [h1]
  · by_cases h2 : u.pathname = ""
    · simp [h1, h2]
    · simp [h1, h2]

theorem forcePreviewIndexUrl_pathname_ne (u : URLRec) :
    (forcePreviewIndexUrl u).pathname ≠ "/" ∧ (forcePreviewIndexUrl u).pathname ≠ "" := by
  rw [forcePreviewIndexUrl_pathname]
  by_cases h : u.pathname = "/" ∨ u.pathname = ""
  · rw [if_pos h]
    exact ⟨by decide, by decide⟩
  · rw [if_neg h]
    push_neg at h
    exact h

/-- Claim C8: `runInteractiveDevPreview` always returns `ok: true` with
`exitCode` 0; its `previewUrl` is the `exposePort` URL (the `exposedAt`
string when present, else `url`) passed through `normalizeLocalPreviewUrl`
and then `forcePreviewIndexUrl`, so a root (`/` or empty) pathname is always
replaced by `/index.html` and the returned pathname is never root. -/
theorem c8_interactive_dev_preview (requestUrl : URLRec) (exposed : ExposedPortInfo) :
    (runInteractiveDevPreview requestUrl exposed).ok = true ∧
    (runInteractiveDevPreview requestUrl exposed).exitCode = 0 ∧
    (runInteractiveDevPreview requestUrl exposed).previewUrl =
      forcePreviewIndexUrl
        (normalizeLocalPreviewUrl (exposed.exposedAt.getD exposed.url) requestUrl) ∧
    (runInteractiveDevPreview requestUrl exposed).previewUrl.pathname =
      (if (normalizeLocalPreviewUrl (exposed.exposedAt.getD exposed.url) requestUrl).pathname
            = "/" ∨
          (normalizeLocalPreviewUrl (exposed.exposedAt.getD exposed.url) requestUrl).pathname
            = ""
       then "/index.html"
       else (normalizeLocalPreviewUrl (exposed.exposedAt.getD exposed.url)
              requestUrl).pathname) ∧
    (runInteractiveDevPreview requestUrl exposed).previewUrl.pathname ≠ "/" ∧
    (runInteractiveDevPreview requestUrl exposed).previewUrl.pathname ≠ "" := by
  refine ⟨rfl, rfl, rfl, ?_, ?_, ?_⟩
  · exact forcePreviewIndexUrl_pathname _
  · exact (forcePreviewIndexUrl_pathname_ne _).1
  · exact (forcePreviewIndexUrl_pathname_ne _).2

/-! ### Spec-side predicates, helper lemmas and claim C4 -/

/-! ### Spec-side predicates and helper lemmas: C4 -/

/-- Spec-side C4: optional-minus integer form. -/
def IntFormSpec (t : String) : Prop :=
  ∃ sign ds, (sign = [] ∨ sign = ['-']) ∧ t.data = sign ++ ds ∧ ds ≠ [] ∧
    ∀ c ∈ ds, c.isDigit

/-- Spec-side C4: optional-minus decimal form with a dot. -/
def FloatFormSpec (t : String) : Prop :=
  ∃ sign d1 d2, (sign = [] ∨ sign = ['-']) ∧ t.data = sign ++ d1 ++ '.' :: d2 ∧
    d1 ≠ [] ∧ d2 ≠ [] ∧ (∀ c ∈ d1, c.isDigit) ∧ ∀ c ∈ d2, c.isDigit

/-- Spec-side C4: `true` or `false` up to ASCII case. -/
def BoolFormSpec (t : String) : Prop :=
  ∃ w : String, (w = "true" ∨ w = "false") ∧ t.data.map regexCanon = w.data.map regexCanon

theorem stripNegSign_of_digits (ds : List Char) (hne : ds ≠ []) (hd : ∀ c ∈ ds, c.isDigit) :
    stripNegSign ds = ds := by
  cases ds with
  | nil => exact absurd rfl hne
  | cons c rest =>
    have hc := hd c (List.mem_cons_self c _)
    rw [stripNegSign.eq_def]
    split
    · rename_i heq
      injection heq with h1 h2
      rw [h1] at hc
      exact absurd hc (by decide)
    · rfl

theorem matchIntRegex_iff (t : String) :
    matchIntRegex t.data = true ↔ IntFormSpec t := by
  rw [matchIntRegex, Bool.and_eq_true, Bool.not_eq_true', List.isEmpty_eq_false,
    List.all_eq_true]
  constructor
  · rintro ⟨hne, hall⟩
    rcases hsn : stripNegSign t.data with _ | ⟨c, rest⟩
    · rw [hsn] at hne
      exact absurd rfl hne
    · cases hd : t.data with
      | nil =>
        have hb : stripNegSign ([] : List Char) = [] := rfl
        rw [hd, hb] at hsn
        exact absurd hsn (by simp)
      | cons c0 rest0 =>
        by_cases hneg : c0 = '-'
        · refine ⟨['-'], c :: rest, Or.inr rfl, ?_, List.cons_ne_nil _ _, ?_⟩
          · rw [hd, hneg]
            have : stripNegSign ('-' :: rest0) = rest0 := rfl
            rw [hd, hneg, this] at hsn
            rw [List.singleton_append, hsn]
          · rw [← hsn]
            intro x hx
            exact hall x hx
        · refine ⟨[], c :: rest, Or.inl rfl, ?_, List.cons_ne_nil _ _, ?_⟩
          · have : stripNegSign (c0 :: rest0) = c0 :: rest0 := by
              rw [stripNegSign.eq_def]
              split
              · rename_i heq
                injection heq with h1 _
                exact absurd h1 hneg
              · rfl
            rw [hd, this] at hsn
            rw [List.nil_append, hd, hsn]
          · rw [← hsn]
            intro x hx
            exact hall x hx
  · rintro ⟨sign, ds, hsign, hdata, hne, hd⟩
    rcases hsign with rfl | rfl
    · rw [List.nil_append] at hdata
      rw [hdata, stripNegSign_of_digits ds hne hd]
      exact ⟨hne, hd⟩
    · rw [List.singleton_append] at hdata
      rw [hdata]
      have : stripNegSign ('-' :: ds) = ds := rfl
      rw [this]
      exact ⟨hne, hd⟩

theorem stripNegSign_cons_ne (c : Char) (rest : List Char) (h : c ≠ '-') :
    stripNegSign (c :: rest) = c :: rest := by
  rw [stripNegSign.eq_def]
  split
  · rename_i heq
    injection heq with h1 _
    exact absurd h1 h
  · rfl

theorem stripNegSign_shape (l : List Char) :
    l = stripNegSign l ∨ l = '-' :: stripNegSign l := by
  rw [stripNegSign.eq_def]
  split
  · exact Or.inr rfl
  · exact Or.inl rfl

theorem dotDigitsTail_iff (l : List Char) :
    dotDigitsTail l = true ↔ ∃ d2, l = '.' :: d2 ∧ d2 ≠ [] ∧ ∀ c ∈ d2, c.isDigit := by
  rw [dotDigitsTail.eq_def]
  split
  · rename_i d2
    rw [Bool.and_eq_true, Bool.not_eq_true', List.isEmpty_eq_false, List.all_eq_true]
    constructor
    · rintro ⟨h1, h2⟩
      exact ⟨d2, rfl, h1, h2⟩
    · rintro ⟨d2a, heq, h1, h2⟩
      injection heq with _ h3
      subst h3
      exact ⟨h1, h2⟩
  · rename_i hnodot
    constructor
    · intro h
      exact absurd h (by decide)
    · rintro ⟨d2, heq, -, -⟩
      exact absurd heq (hnodot d2)

theorem matchFloatRegex_iff (t : String) :
    matchFloatRegex t.data = true ↔ FloatFormSpec t := by
  rw [matchFloatRegex, Bool.and_eq_true, Bool.not_eq_true', List.isEmpty_eq_false,
    dotDigitsTail_iff]
  constructor
  · rintro ⟨hne, d2, hB, hne2, hd2⟩
    have hsplit := List.takeWhile_append_dropWhile Char.isDigit (stripNegSign t.data)
    rw [hB] at hsplit
    have hd1 : ∀ x ∈ (stripNegSign t.data).takeWhile Char.isDigit, x.isDigit :=
      fun x hx => List.mem_takeWhile_imp hx
    rcases stripNegSign_shape t.data with hsh | hsh
    · refine ⟨[], (stripNegSign t.data).takeWhile Char.isDigit, d2, Or.inl rfl, ?_,
        hne, hne2, hd1, hd2⟩
      rw [List.nil_append, hsplit]
      exact hsh
    · refine ⟨['-'], (stripNegSign t.data).takeWhile Char.isDigit, d2, Or.inr rfl, ?_,
        hne, hne2, hd1, hd2⟩
      rw [List.append_assoc, List.singleton_append, hsplit]
      exact hsh
  · rintro ⟨sign, d1, d2, hsign, hdata, hne1, hne2, hd1, hd2⟩
    have hstrip : stripNegSign t.data = d1 ++ '.' :: d2 := by
      rcases hsign with rfl | rfl
      · rw [List.nil_append] at hdata
        rw [hdata]
        cases d1 with
        | nil => exact absurd rfl hne1
        | cons c rest =>
          rw [List.cons_append]
          refine stripNegSign_cons_ne c (rest ++ '.' :: d2) ?_
          intro hcdash
          have hcd := hd1 c (List.mem_cons_self c _)
          rw [hcdash] at hcd
          exact absurd hcd (by decide)
      · rw [List.singleton_append] at hdata
        rw [hdata]
        rfl
    have hdot : Char.isDigit '.' = false := by decide
    rw [hstrip, List.takeWhile_append_of_pos hd1, List.dropWhile_append_of_pos hd1,
      List.takeWhile_cons, hdot, List.dropWhile_cons, hdot]
    simp only [Bool.false_eq_true, if_false, List.append_nil]
    exact ⟨hne1, d2, rfl, hne2, hd2⟩

theorem canon_of_digit (c : Char) (h : c.isDigit = true) : regexCanon c = c := by
  rw [regexCanon, if_neg]
  intro hcond
  rw [Bool.and_eq_true] at hcond
  have h1 : 'a' ≤ c := of_decide_eq_true hcond.1
  rw [Char.isDigit, Bool.and_eq_true] at h
  have h2 : c ≤ '9' := of_decide_eq_true h.2
  exact absurd (le_trans h1 h2) (by decide)

theorem boolForm_chars (t : String) (hb : BoolFormSpec t) :
    t.data ≠ [] ∧ ∀ c ∈ t.data, ¬(c = '-' ∨ c.isDigit = true) := by
  obtain ⟨w, hw, hmap⟩ := hb
  constructor
  · intro hnil
    rw [hnil] at hmap
    rcases hw with rfl | rfl <;> exact absurd hmap (by decide)
  · intro c hc hbad
    have hcanon : regexCanon c ∈ t.data.map regexCanon := List.mem_map_of_mem _ hc
    rw [hmap] at hcanon
    rcases hw with rfl | rfl
    · have hTR : List.map regexCanon "true".data = "TRUE".data := by decide
      rw [hTR] at hcanon
      rcases hbad with rfl | hdig
      · exact absurd hcanon (by decide)
      · rw [canon_of_digit c hdig] at hcanon
        fin_cases hcanon <;> exact absurd hdig (by decide)
    · have hFA : List.map regexCanon "false".data = "FALSE".data := by decide
      rw [hFA] at hcanon
      rcases hbad with rfl | hdig
      · exact absurd hcanon (by decide)
      · rw [canon_of_digit c hdig] at hcanon
        fin_cases hcanon <;> exact absurd hdig (by decide)

theorem matchBoolRegex_iff (t : String) :
    matchBoolRegex t.data = true ↔ BoolFormSpec t := by
  rw [matchBoolRegex]
  simp only [Bool.or_eq_true, decide_eq_true_eq]
  constructor
  · rintro (h | h)
    · exact ⟨"true", Or.inl rfl, by rw [h]; decide⟩
    · exact ⟨"false", Or.inr rfl, by rw [h]; decide⟩
  · rintro ⟨w, hw, hmap⟩
    rcases hw with rfl | rfl
    · exact Or.inl (by rw [hmap]; decide)
    · exact Or.inr (by rw [hmap]; decide)

theorem intForm_has_digit (t : String) (h : IntFormSpec t) :
    ∃ c ∈ t.data, c.isDigit = true := by
  obtain ⟨sign, ds, -, hdata, hne, hd⟩ := h
  cases ds with
  | nil => exact absurd rfl hne
  | cons c rest =>
    refine ⟨c, ?_, hd c (List.mem_cons_self c _)⟩
    rw [hdata]
    exact List.mem_append_right _ (List.mem_cons_self c _)

theorem floatForm_has_digit (t : String) (h : FloatFormSpec t) :
    ∃ c ∈ t.data, c.isDigit = true := by
  obtain ⟨sign, d1, d2, -, hdata, hne1, -, hd1, -⟩ := h
  cases d1 with
  | nil => exact absurd rfl hne1
  | cons c rest =>
    refine ⟨c, ?_, hd1 c (List.mem_cons_self c _)⟩
    rw [hdata]
    exact List.mem_append_left _ (List.mem_append_right _ (List.mem_cons_self c _))

theorem intForm_chars (t : String) (h : IntFormSpec t) :
    ∀ c ∈ t.data, c = '-' ∨ c.isDigit = true := by
  obtain ⟨sign, ds, hsign, hdata, -, hd⟩ := h
  intro c hc
  rw [hdata] at hc
  rcases List.mem_append.mp hc with hcs | hcd
  · rcases hsign with rfl | rfl
    · exact absurd hcs (List.not_mem_nil c)
    · rcases List.mem_singleton.mp hcs with rfl
      exact Or.inl rfl
  · exact Or.inr (hd c hcd)

theorem floatForm_has_dot (t : String) (h : FloatFormSpec t) : '.' ∈ t.data := by
  obtain ⟨sign, d1, d2, -, hdata, -, -, -, -⟩ := h
  rw [hdata]
  exact List.mem_append_right _ (List.mem_cons_self _ _)

theorem not_int_and_float (t : String) : ¬(IntFormSpec t ∧ FloatFormSpec t) := by
  rintro ⟨hi, hf⟩
  rcases intForm_chars t hi '.' (floatForm_has_dot t hf) with hdash | hdig
  · exact absurd hdash (by decide)
  · exact absurd hdig (by decide)

theorem not_bool_and_int (t : String) : ¬(BoolFormSpec t ∧ IntFormSpec t) := by
  rintro ⟨hb, hi⟩
  obtain ⟨c, hc, hdig⟩ := intForm_has_digit t hi
  exact (boolForm_chars t hb).2 c hc (Or.inr hdig)

theorem not_bool_and_float (t : String) : ¬(BoolFormSpec t ∧ FloatFormSpec t) := by
  rintro ⟨hb, hf⟩
  obtain ⟨c, hc, hdig⟩ := floatForm_has_digit t hf
  exact (boolForm_chars t hb).2 c hc (Or.inr hdig)

theorem intForm_ne_empty (t : String) (h : IntFormSpec t) : t.data ≠ [] := by
  obtain ⟨c, hc, -⟩ := intForm_has_digit t h
  exact List.ne_nil_of_mem hc

theorem floatForm_ne_empty (t : String) (h : FloatFormSpec t) : t.data ≠ [] := by
  obtain ⟨c, hc, -⟩ := floatForm_has_digit t h
  exact List.ne_nil_of_mem hc

theorem inferCsvValueType_cases (v : String) :
    (inferCsvValueType v = "int64" ↔ IntFormSpec (jsTrim v)) ∧
    (inferCsvValueType v = "float64" ↔ FloatFormSpec (jsTrim v)) ∧
    (inferCsvValueType v = "bool" ↔ BoolFormSpec (jsTrim v)) ∧
    (inferCsvValueType v = "string" ↔
      ¬IntFormSpec (jsTrim v) ∧ ¬FloatFormSpec (jsTrim v) ∧ ¬BoolFormSpec (jsTrim v)) := by
  rw [inferCsvValueType]
  by_cases hblank : jsTrim v = ""
  · rw [if_pos hblank]
    have hi : ¬ IntFormSpec (jsTrim v) := fun h =>
      intForm_ne_empty _ h (by rw [hblank])
    have hf : ¬ FloatFormSpec (jsTrim v) := fun h =>
      floatForm_ne_empty _ h (by rw [hblank])
    have hb : ¬ BoolFormSpec (jsTrim v) := fun h =>
      (boolForm_chars _ h).1 (by rw [hblank])
    exact ⟨iff_of_false (by decide) hi, iff_of_false (by decide) hf,
      iff_of_false (by decide) hb, iff_of_true rfl ⟨hi, hf, hb⟩⟩
  · rw [if_neg hblank]
    by_cases hint : matchIntRegex (jsTrim v).data = true
    · rw [if_pos hint]
      have hi := (matchIntRegex_iff (jsTrim v)).mp hint
      exact ⟨iff_of_true rfl hi,
        iff_of_false (by decide) (fun hf => not_int_and_float _ ⟨hi, hf⟩),
        iff_of_false (by decide) (fun hb => not_bool_and_int _ ⟨hb, hi⟩),
        iff_of_false (by decide) (fun hc => hc.1 hi)⟩
    · rw [if_neg hint]
      have hi : ¬ IntFormSpec (jsTrim v) := fun h => hint ((matchIntRegex_iff _).mpr h)
      by_cases hfl : matchFloatRegex (jsTrim v).data = true
      · rw [if_pos hfl]
        have hf := (matchFloatRegex_iff (jsTrim v)).mp hfl
        exact ⟨iff_of_false (by decide) hi, iff_of_true rfl hf,
          iff_of_false (by decide) (fun hb => not_bool_and_float _ ⟨hb, hf⟩),
          iff_of_false (by decide) (fun hc => hc.2.1 hf)⟩
      · rw [if_neg hfl]
        have hf : ¬ FloatFormSpec (jsTrim v) := fun h => hfl ((matchFloatRegex_iff _).mpr h)
        by_cases hbo : matchBoolRegex (jsTrim v).data = true
        · rw [if_pos hbo]
          have hb := (matchBoolRegex_iff (jsTrim v)).mp hbo
          exact ⟨iff_of_false (by decide) hi, iff_of_false (by decide) hf,
            iff_of_true rfl hb, iff_of_false (by decide) (fun hc => hc.2.2 hb)⟩
        · rw [if_neg hbo]
          have hb : ¬ BoolFormSpec (jsTrim v) := fun h => hbo ((matchBoolRegex_iff _).mpr h)
          exact ⟨iff_of_false (by decide) hi, iff_of_false (by decide) hf,
            iff_of_false (by decide) hb, iff_of_true rfl ⟨hi, hf, hb⟩⟩

/-- Claim C4: `buildCsvStructure` returns the canonical empty JSON object on
all-blank input; otherwise `rows` is the number of non-blank lines minus one,
`columns` the trimmed comma-split of the first line, `sample` the objects of
the first at-most-3 data records (missing cells as the empty string), and
each column's dtype comes from its first non-blank cell via
`inferCsvValueType`, which yields `int64` on optional-minus integer forms,
`float64` on optional-minus dotted decimal forms, `bool` on `true`/`false`
up to case, and `string` otherwise. -/
theorem c4_build_csv_structure :
    (∀ csv : String, csvLines csv = [] →
      buildCsvStructure csv =
        "\x7b\"rows\":0,\"columns\":[],\"dtypes\":\x7b\x7d,\"sample\":[]\x7d") ∧
    (∀ (csv line0 : String) (restLines : List String),
      csvLines csv = line0 :: restLines →
      (buildCsvStructureObj csv).rows = (csvLines csv).length - 1 ∧
      (buildCsvStructureObj csv).columns = (jsSplitChar line0 ',').map jsTrim ∧
      (buildCsvStructureObj csv).sample =
        ((restLines.map fun line => (jsSplitChar line ',').map jsTrim).take 3).map
          (fun row => fromEntries
            (((jsSplitChar line0 ',').map jsTrim).enum.map fun p =>
              (p.2, row.getD p.1 ""))) ∧
      (buildCsvStructureObj csv).sample.length = min 3 ((csvLines csv).length - 1) ∧
      (buildCsvStructureObj csv).dtypes =
        fromEntries (((jsSplitChar line0 ',').map jsTrim).enum.map fun p =>
          (p.2, inferCsvValueType
            ((((restLines.map fun line => (jsSplitChar line ',').map jsTrim).find?
                (fun row => 0 < (jsTrim (row.getD p.1 "")).length)).map
              (fun row => row.getD p.1 "")).getD ""))) ∧
      buildCsvStructure csv = jsonStringify (csvStructJson (buildCsvStructureObj csv))) ∧
    (∀ v : String,
      (inferCsvValueType v = "int64" ↔ IntFormSpec (jsTrim v)) ∧
      (inferCsvValueType v = "float64" ↔ FloatFormSpec (jsTrim v)) ∧
      (inferCsvValueType v = "bool" ↔ BoolFormSpec (jsTrim v)) ∧
      (inferCsvValueType v = "string" ↔
        ¬IntFormSpec (jsTrim v) ∧ ¬FloatFormSpec (jsTrim v) ∧ ¬BoolFormSpec (jsTrim v))) := by
  refine ⟨?_, ?_, inferCsvValueType_cases⟩
  · intro csv h
    rw [buildCsvStructure, buildCsvStructureObj.eq_def, h]
    decide
  · intro csv line0 restLines h
    refine ⟨?_, ?_, ?_, ?_, ?_, rfl⟩
    · rw [buildCsvStructureObj.eq_def, h]
      dsimp only
      rw [List.length_map, List.length_cons]
      omega
    · rw [buildCsvStructureObj.eq_def, h]
    · rw [buildCsvStructureObj.eq_def, h]
    · rw [buildCsvStructureObj.eq_def, h]
      dsimp only
      rw [List.length_map, List.length_take, List.length_map, List.length_cons]
      omega
    · rw [buildCsvStructureObj.eq_def, h]
      dsimp only
      refine congrArg fromEntries (List.map_congr_left ?_)
      intro p hp
      refine congrArg _ (congrArg inferCsvValueType ?_)
      rw [List.find?_map]
      rfl

theorem c4_build_csv_structure_witness :
    (buildCsvStructure " \n " =
      "\x7b\"rows\":0,\"columns\":[],\"dtypes\":\x7b\x7d,\"sample\":[]\x7d") ∧
    ((buildCsvStructureObj "a,b\n1,2.5\n,true").rows =
      (csvLines "a,b\n1,2.5\n,true").length - 1) ∧
    ((buildCsvStructureObj "a,b\n1,2.5\n,true").columns =
      (jsSplitChar "a,b" ',').map jsTrim) ∧
    (inferCsvValueType " -42 " = "int64" ↔ IntFormSpec (jsTrim " -42 ")) :=
  ⟨c4_build_csv_structure.1 " \n " (by decide),
   (c4_build_csv_structure.2.1 "a,b\n1,2.5\n,true" "a,b" ["1,2.5", ",true"] (by decide)).1,
   (c4_build_csv_structure.2.1 "a,b\n1,2.5\n,true" "a,b" ["1,2.5", ",true"] (by decide)).2.1,
   (c4_build_csv_structure.2.2 " -42 ").1⟩

/-! ### Helper lemmas and claim C2 -/
theorem hexVal_hexDigitUpper (m : Nat) (h : m < 16) : hexVal (hexDigitUpper m) = some m := by
  have hall : ∀ m : Fin 16, hexVal (hexDigitUpper m.val) = some m.val := by decide
  exact hall ⟨m, h⟩

theorem isUriUnescaped_ne_pct (c : Char) (h : isUriUnescaped c = true) : c ≠ '%' := by
  intro heq
  rw [heq] at h
  exact absurd h (by decide)

theorem pctTokens_cons_ne (c : Char) (xs : List Char) (h : c ≠ '%') :
    pctTokens (c :: xs) = (pctTokens xs).map (fun ts => PctTok.raw c :: ts) := by
  rw [pctTokens.eq_def]
  dsimp only
  rw [if_neg h]

theorem pctTokens_pct (h1 h2 : Char) (a b : Nat) (xs : List Char)
    (ha : hexVal h1 = some a) (hb : hexVal h2 = some b) :
    pctTokens ('%' :: h1 :: h2 :: xs) =
      (pctTokens xs).map (fun ts => PctTok.byte (16 * a + b) :: ts) := by
  rw [pctTokens.eq_def]
  dsimp only
  rw [if_pos rfl, ha, hb]

theorem utf8Decode_raw (c : Char) (ts : List PctTok) :
    utf8Decode (PctTok.raw c :: ts) = (utf8Decode ts).map (c :: ·) := by
  rw [utf8Decode.eq_def]

theorem utf8Decode_byte_ascii (b : Nat) (hb : b < 0x80) (ts : List PctTok) :
    utf8Decode (PctTok.byte b :: ts) = (utf8Decode ts).map (Char.ofNat b :: ·) := by
  rw [utf8Decode.eq_def]
  dsimp only
  rw [if_pos hb]

theorem decode_encode_list (l : List Char) (h : ∀ c ∈ l, c.toNat < 128) :
    (pctTokens (encodeURIComponentList l) >>= utf8Decode) = some l := by
  induction l with
  | nil => rfl
  | cons c rest ih =>
    have hrest := ih fun x hx => h x (List.mem_cons_of_mem _ hx)
    have hc := h c (List.mem_cons_self c _)
    by_cases hu : isUriUnescaped c = true
    · have henc : encodeURIComponentList (c :: rest) =
          c :: encodeURIComponentList rest := by
        rw [encodeURIComponentList, List.flatMap_cons, if_pos hu]
        rfl
      rw [henc, pctTokens_cons_ne c _ (isUriUnescaped_ne_pct c hu)]
      cases hE : pctTokens (encodeURIComponentList rest) with
      | none =>
        rw [hE] at hrest
        rw [show ((none : Option (List PctTok)) >>= utf8Decode) = none from rfl] at hrest
        exact Option.noConfusion hrest
      | some ts =>
        rw [hE] at hrest
        rw [show ((some ts : Option (List PctTok)) >>= utf8Decode) = utf8Decode ts from rfl]
          at hrest
        rw [show Option.map (fun ts => PctTok.raw c :: ts) (some ts) =
          some (PctTok.raw c :: ts) from rfl]
        rw [show ((some (PctTok.raw c :: ts) : Option (List PctTok)) >>= utf8Decode) =
          utf8Decode (PctTok.raw c :: ts) from rfl]
        rw [utf8Decode_raw, hrest]
        rfl
    · have hbytes : utf8Bytes c = [c.toNat] := by
        rw [utf8Bytes]
        rw [if_pos hc]
      have henc : encodeURIComponentList (c :: rest) =
          '%' :: hexDigitUpper (c.toNat / 16) :: hexDigitUpper (c.toNat % 16) ::
            encodeURIComponentList rest := by
        rw [encodeURIComponentList, List.flatMap_cons, if_neg hu, hbytes]
        rfl
      rw [henc, pctTokens_pct _ _ (c.toNat / 16) (c.toNat % 16) _
        (hexVal_hexDigitUpper _ (by omega)) (hexVal_hexDigitUpper _ (by omega))]
      have hb16 : 16 * (c.toNat / 16) + c.toNat % 16 = c.toNat := by omega
      rw [hb16]
      cases hE : pctTokens (encodeURIComponentList rest) with
      | none =>
        rw [hE] at hrest
        rw [show ((none : Option (List PctTok)) >>= utf8Decode) = none from rfl] at hrest
        exact Option.noConfusion hrest
      | some ts =>
        rw [hE] at hrest
        rw [show ((some ts : Option (List PctTok)) >>= utf8Decode) = utf8Decode ts from rfl]
          at hrest
        rw [show Option.map (fun ts => PctTok.byte c.toNat :: ts) (some ts) =
          some (PctTok.byte c.toNat :: ts) from rfl]
        rw [show ((some (PctTok.byte c.toNat :: ts) : Option (List PctTok)) >>= utf8Decode) =
          utf8Decode (PctTok.byte c.toNat :: ts) from rfl]
        rw [utf8Decode_byte_ascii _ (by omega), hrest, Char.ofNat_toNat]
        rfl

theorem decodeURIComponent_encodeURIComponent (s : String)
    (h : ∀ c ∈ s.data, c.toNat < 128) :
    decodeURIComponent (encodeURIComponent s) = some s := by
  rw [decodeURIComponent, encodeURIComponent]
  rw [show (⟨encodeURIComponentList s.data⟩ : String).data = encodeURIComponentList s.data
    from rfl]
  rw [decode_encode_list s.data h]
  rfl

theorem encode_ascii_avoid (l : List Char) (hascii : ∀ c ∈ l, c.toNat < 128)
    (sep : Char) (hsep : isUriUnescaped sep = false)
    (hpct : sep ≠ '%') (hhex : ∀ m : Fin 16, hexDigitUpper m.val ≠ sep) :
    ∀ c ∈ encodeURIComponentList l, c ≠ sep := by
  intro c hc
  rw [encodeURIComponentList, List.mem_flatMap] at hc
  obtain ⟨x, hx, hcx⟩ := hc
  by_cases hu : isUriUnescaped x = true
  · rw [if_pos hu] at hcx
    rcases List.mem_singleton.mp hcx with rfl
    intro heq
    rw [heq] at hu
    rw [hsep] at hu
    exact Bool.noConfusion hu
  · rw [if_neg hu, show utf8Bytes x = [x.toNat] from by rw [utf8Bytes, if_pos (hascii x hx)]]
      at hcx
    rw [show ([x.toNat].flatMap pctEncodeByte) = pctEncodeByte x.toNat from by
      rw [List.flatMap_cons, List.flatMap_nil, List.append_nil]] at hcx
    rw [pctEncodeByte] at hcx
    have hxa := hascii x hx
    rcases List.mem_cons.mp hcx with rfl | hcx
    · exact hpct.symm
    rcases List.mem_cons.mp hcx with rfl | hcx
    · exact hhex ⟨x.toNat / 16, by omega⟩
    rcases List.mem_cons.mp hcx with rfl | hcx
    · exact hhex ⟨x.toNat % 16, by omega⟩
    · exact absurd hcx (List.not_mem_nil c)

theorem findIdx_sep (sep : Char) (enc rest2 : List Char) (hno : ∀ c ∈ enc, c ≠ sep) :
    jsIndexOfChar (enc ++ sep :: rest2) sep = some enc.length := by
  induction enc with
  | nil =>
    rw [List.nil_append, jsIndexOfChar, List.findIdx?_cons]
    simp
  | cons c cs ih =>
    rw [List.cons_append, jsIndexOfChar, List.findIdx?_cons]
    have hcne : ¬ (decide (c = sep) = true) := by
      simp only [decide_eq_true_eq]
      exact hno c (List.mem_cons_self c _)
    rw [if_neg hcne, List.findIdx?_succ]
    rw [jsIndexOfChar] at ih
    rw [ih fun x hx => hno x (List.mem_cons_of_mem _ hx)]
    rfl

theorem jsIndexOfChar_none (sep : Char) (l : List Char) (hno : ∀ c ∈ l, c ≠ sep) :
    jsIndexOfChar l sep = none := by
  induction l with
  | nil => rfl
  | cons c cs ih =>
    rw [jsIndexOfChar, List.findIdx?_cons]
    rw [if_neg (by
      simp only [decide_eq_true_eq]
      exact hno c (List.mem_cons_self c _))]
    rw [List.findIdx?_succ]
    rw [jsIndexOfChar] at ih
    rw [ih fun x hx => hno x (List.mem_cons_of_mem _ hx)]
    rfl

theorem setHost_noport (u : URLRec) (hn : String) (hnc : ∀ c ∈ hn.data, c ≠ ':') :
    setHost u hn = { u with hostname := hn } := by
  rw [setHost, jsIndexOfChar_none ':' hn.data hnc]

theorem setHost_hostport (u : URLRec) (hn pt : String)
    (hnc : ∀ c ∈ hn.data, c ≠ ':') (hpne : pt ≠ "") :
    setHost u (hn ++ ":" ++ pt) =
      if defaultPort u.protocol = some pt then { u with hostname := hn, port := "" }
      else { u with hostname := hn, port := pt } := by
  have hidx : jsIndexOfChar (hn ++ ":" ++ pt).data ':' = some hn.data.length := by
    rw [String.data_append, String.data_append,
      show (":" : String).data = [':'] from rfl, List.append_assoc, List.singleton_append]
    exact findIdx_sep ':' hn.data pt.data hnc
  rw [setHost, hidx]
  have htake : (hn ++ ":" ++ pt).data.take hn.data.length = hn.data := by
    rw [String.data_append, String.data_append,
      show (":" : String).data = [':'] from rfl, List.append_assoc, List.singleton_append]
    exact List.take_left hn.data _
  have hdrop : (hn ++ ":" ++ pt).data.drop (hn.data.length + 1) = pt.data := by
    rw [String.data_append, String.data_append,
      show (":" : String).data = [':'] from rfl, List.append_assoc, List.singleton_append]
    rw [← List.drop_drop, List.drop_left]
    rfl
  dsimp only
  rw [htake, hdrop]
  rw [if_neg (by intro hcon; exact hpne (by rw [← hcon]))]

theorem buildLocalPreviewFallbackUrl_eq (preview request : URLRec)
    (h1 : isLocalHostname request.hostname = true)
    (h2 : isLocalHostname preview.hostname = true) :
    buildLocalPreviewFallbackUrl preview request = some
      { protocol := request.protocol, hostname := request.hostname, port := request.port
        pathname := localPreviewProxyPrefixVal ++ "/" ++ encodeURIComponent preview.host ++
          preview.pathname
        search := preview.search, hash := "" } := by
  rw [buildLocalPreviewFallbackUrl, if_neg (by rw [h1, h2]; decide)]
  rfl

/-- Claim C2 counterexample: the round trip does not always recover the
preview URL's host, port included, as the proxy target.  For the portless
local preview `http://4000-app.localhost/?a=1` and the request
`http://localhost:8787/x`, the decoded host segment has no colon, so the
WHATWG host setter keeps the fallback request's port: the proxy target's
host is `4000-app.localhost:8787`, not the preview's `4000-app.localhost`. -/
theorem c2_local_preview_roundtrip_counterexample :
    isLocalHostname "4000-app.localhost" = true ∧
    isLocalHostname "localhost" = true ∧
    buildLocalPreviewFallbackUrl ⟨"http:", "4000-app.localhost", "", "/", "?a=1", ""⟩
        ⟨"http:", "localhost", "8787", "/x", "", ""⟩ =
      some
        ⟨"http:", "localhost", "8787", "/__sandbox_preview/4000-app.localhost/", "?a=1", ""⟩ ∧
    handleLocalPreviewProxyRoute
        ⟨"http:", "localhost", "8787", "/__sandbox_preview/4000-app.localhost/", "?a=1", ""⟩ =
      some (some
        { previewHost := "4000-app.localhost"
          proxiedPath := "/"
          proxyTarget := ⟨"http:", "4000-app.localhost", "8787", "/", "?a=1", ""⟩ }) ∧
    URLRec.host ⟨"http:", "4000-app.localhost", "", "/", "?a=1", ""⟩ = "4000-app.localhost" ∧
    URLRec.host ⟨"http:", "4000-app.localhost", "8787", "/", "?a=1", ""⟩ ≠
      "4000-app.localhost" :=
  ⟨by decide, by decide, by decide, by decide, by decide, by decide⟩

/-- Claim C2 (amended): when both hostnames are local (with the parse
invariants: ASCII host, colon-free hostname, slash-initial pathname), the
fallback URL's pathname starts with `/__sandbox_preview/`, and the decoding
of `handleLocalPreviewProxyRoute` recovers the preview URL's host string,
port included, as the decoded host segment, and its pathname and query in
the proxy target, whose hostname is the preview's; the proxy target's port
is the preview's port when that is explicit and not the default port of the
request's scheme, keeps the fallback request's port when the preview URL has
no port, and is cleared when the preview's port is the request scheme's
default (WHATWG host-setter rules — see the counterexample). -/
theorem c2_local_preview_roundtrip_amended (preview request : URLRec)
    (hl1 : isLocalHostname preview.hostname = true)
    (hl2 : isLocalHostname request.hostname = true)
    (hascii : ∀ c ∈ preview.host.data, c.toNat < 128)
    (hnc : ∀ c ∈ preview.hostname.data, c ≠ ':')
    (r : List Char) (hpath : preview.pathname.data = '/' :: r) :
    ∃ fb : URLRec,
      buildLocalPreviewFallbackUrl preview request = some fb ∧
      jsStartsWith fb.pathname (localPreviewProxyPrefixVal ++ "/") = true ∧
      handleLocalPreviewProxyRoute fb = some (some
        { previewHost := preview.host
          proxiedPath := preview.pathname
          proxyTarget :=
            { protocol := request.protocol, hostname := preview.hostname
              port :=
                if preview.port = "" then request.port
                else if defaultPort request.protocol = some preview.port then ""
                else preview.port
              pathname := preview.pathname
              search := preview.search, hash := "" } }) := by
  have hfbdata :
      (localPreviewProxyPrefixVal ++ "/" ++ encodeURIComponent preview.host ++
        preview.pathname).data =
      (localPreviewProxyPrefixVal ++ "/").data ++
        ((encodeURIComponent preview.host).data ++ preview.pathname.data) := by
    rw [String.data_append, String.data_append, List.append_assoc]
  refine ⟨_, buildLocalPreviewFallbackUrl_eq preview request hl2 hl1, ?_, ?_⟩
  · rw [jsStartsWith]
    dsimp only
    rw [hfbdata]
    exact List.isPrefixOf_iff_prefix.mpr (List.prefix_append _ _)
  · have hStart : jsStartsWith
        (localPreviewProxyPrefixVal ++ "/" ++ encodeURIComponent preview.host ++
          preview.pathname) (localPreviewProxyPrefixVal ++ "/") = true := by
      rw [jsStartsWith, hfbdata]
      exact List.isPrefixOf_iff_prefix.mpr (List.prefix_append _ _)
    have hrest : previewProxyRest
        { protocol := request.protocol, hostname := request.hostname, port := request.port
          pathname := localPreviewProxyPrefixVal ++ "/" ++ encodeURIComponent preview.host ++
            preview.pathname
          search := preview.search, hash := "" } =
        (encodeURIComponent preview.host).data ++ preview.pathname.data := by
      rw [previewProxyRest]
      dsimp only
      rw [hfbdata]
      exact List.drop_left' rfl
    have hnoslash : ∀ c ∈ (encodeURIComponent preview.host).data, c ≠ '/' :=
      encode_ascii_avoid preview.host.data hascii '/' (by decide) (by decide) (by decide)
    have hfind : jsIndexOfChar
        ((encodeURIComponent preview.host).data ++ preview.pathname.data) '/' =
        some (encodeURIComponent preview.host).data.length := by
      rw [hpath]
      exact findIdx_sep '/' _ r hnoslash
    have hench : previewProxyEncodedHost
        { protocol := request.protocol, hostname := request.hostname, port := request.port
          pathname := localPreviewProxyPrefixVal ++ "/" ++ encodeURIComponent preview.host ++
            preview.pathname
          search := preview.search, hash := "" } = encodeURIComponent preview.host := by
      rw [previewProxyEncodedHost.eq_def, hrest, hfind]
      dsimp only
      rw [List.take_left]
    have hpathEq : previewProxyPath
        { protocol := request.protocol, hostname := request.hostname, port := request.port
          pathname := localPreviewProxyPrefixVal ++ "/" ++ encodeURIComponent preview.host ++
            preview.pathname
          search := preview.search, hash := "" } = preview.pathname := by
      rw [previewProxyPath.eq_def, hrest, hfind]
      dsimp only
      rw [List.drop_left]
    have hdec : decodeURIComponent (encodeURIComponent preview.host) = some preview.host :=
      decodeURIComponent_encodeURIComponent preview.host hascii
    have hpne2 : preview.pathname ≠ "" := by
      intro he
      rw [he] at hpath
      exact List.noConfusion hpath
    rw [handleLocalPreviewProxyRoute.eq_def, if_neg (not_not_intro hStart), hench, hdec]
    dsimp only
    rw [hpathEq, if_neg hpne2]
    have hset : setHost
        { protocol := request.protocol, hostname := request.hostname, port := request.port
          pathname := localPreviewProxyPrefixVal ++ "/" ++ encodeURIComponent preview.host ++
            preview.pathname
          search := preview.search, hash := "" } preview.host =
        { protocol := request.protocol, hostname := preview.hostname
          port :=
            if preview.port = "" then request.port
            else if defaultPort request.protocol = some preview.port then ""
            else preview.port
          pathname := localPreviewProxyPrefixVal ++ "/" ++ encodeURIComponent preview.host ++
            preview.pathname
          search := preview.search, hash := "" } := by
      by_cases hpne : preview.port = ""
      · rw [if_pos hpne, URLRec.host, if_pos hpne, setHost_noport _ _ hnc]
      · rw [if_neg hpne, URLRec.host, if_neg hpne, setHost_hostport _ _ _ hnc hpne]
        dsimp only
        by_cases hdp : defaultPort request.protocol = some preview.port
        · rw [if_pos hdp, if_pos hdp]
        · rw [if_neg hdp, if_neg hdp]
    rw [hset]

theorem c2_local_preview_roundtrip_amended_witness :
    (∃ fb : URLRec,
      buildLocalPreviewFallbackUrl ⟨"http:", "4000-app.localhost", "8787", "/", "?a=1", ""⟩
          ⟨"http:", "localhost", "8787", "/api/examples/interactive-dev", "", ""⟩ = some fb ∧
      jsStartsWith fb.pathname (localPreviewProxyPrefixVal ++ "/") = true ∧
      handleLocalPreviewProxyRoute fb = some (some
        { previewHost := URLRec.host ⟨"http:", "4000-app.localhost", "8787", "/", "?a=1", ""⟩
          proxiedPath := "/"
          proxyTarget :=
            { protocol := "http:", hostname := "4000-app.localhost"
              port :=
                if ("8787" : String) = "" then "8787"
                else if defaultPort "http:" = some "8787" then ""
                else "8787"
              pathname := "/"
              search := "?a=1", hash := "" } })) ∧
    (if ("8787" : String) = "" then ("8787" : String)
     else if defaultPort "http:" = some "8787" then ""
     else "8787") = "8787" :=
  ⟨c2_local_preview_roundtrip_amended ⟨"http:", "4000-app.localhost", "8787", "/", "?a=1", ""⟩
    ⟨"http:", "localhost", "8787", "/api/examples/interactive-dev", "", ""⟩
    (by decide) (by decide) (by decide) (by decide) [] (by decide), by decide⟩
